import Mathlib

/-!
Shallow embedding of the IoT-Anomaly-Detection behavioral-timeline simulation
engine (`simulation/person.py`, `simulation/apartment.py`).

Modelling conventions:
* A timestamp is abstracted to the calendar features the simulation reads
  (`extract_time_features` in `simulation/func.py`): fractional hour (as an
  exact rational), weekday (0 = Monday .. 6 = Sunday) and normalized date
  (an integer day key).  The feature extractor itself is a field-wise map,
  so the timeline is a list of such feature records.
* 0/1 sensor arrays are `List ℕ`.
* A person's private numpy `Generator` is abstracted to a draw stream: a
  function `ℕ → ℕ` together with a counter; every call to
  `Generator.integers` or `Generator.choice` consumes exactly one raw draw
  and maps it into the requested range.  `Generator.integers(low, high)`
  raises `ValueError` when `low >= high`; a raise is modelled as `none`.
* The process-wide `np.random` stream used by `Apartment` is modelled the
  same way with rational raw draws (`np.random.rand()` returns the raw
  draw, `np.random.randint` maps it into range).
-/

/-- A raw draw stream with a counter: abstraction of `np.random.Generator`. -/
structure RNG where
  f : ℕ → ℕ
  k : ℕ

/-- Consume one raw draw. -/
def RNG.next (g : RNG) : ℕ × RNG := (g.f g.k, ⟨g.f, g.k + 1⟩)

/-- `Generator.integers(low, highEx)` : uniform over `[low, highEx)`;
raises (`none`) when `low >= highEx`. -/
def npIntegers (low highEx : ℤ) (g : RNG) : Option (ℤ × RNG) :=
  if low < highEx then
    let (r, g') := g.next
    some (low + (r : ℤ) % (highEx - low), g')
  else none

/-- `Generator.choice(l)` : uniform element of the list; raises on empty. -/
def npChoice (l : List ℕ) (g : RNG) : Option (ℕ × RNG) :=
  if l.isEmpty then none
  else
    let (r, g') := g.next
    some (l.getD (r % l.length) 0, g')

/-- Calendar features of one timestamp, as read by the simulation:
fractional hour, weekday, normalized (midnight-truncated) date key. -/
structure TP where
  hour : ℚ
  weekday : ℕ
  date : ℤ
deriving DecidableEq

/-- A timestamp axis, abstracted to its calendar features. -/
abbrev Timeline := List TP

/-- Ascending insertion (helper for the sort performed by `np.unique`). -/
def insertAsc (x : ℤ) : List ℤ → List ℤ
  | [] => [x]
  | y :: ys => if x ≤ y then x :: y :: ys else y :: insertAsc x ys

/-- Ascending insertion sort (helper for `np.unique`). -/
def sortAsc : List ℤ → List ℤ
  | [] => []
  | x :: xs => insertAsc x (sortAsc xs)

/-- Collapse adjacent duplicates of a (sorted) list. -/
def dedupAdj : List ℤ → List ℤ
  | [] => []
  | [x] => [x]
  | x :: y :: xs => if x = y then dedupAdj (y :: xs) else x :: dedupAdj (y :: xs)

/-- `np.unique(dates)` : sorted list of the distinct values. -/
def npUnique (dates : List ℤ) : List ℤ := dedupAdj (sortAsc dates)

/-- `np.where(dates == d)[0]` : ascending indices whose date equals `d`. -/
def npWhereEq (dates : List ℤ) (d : ℤ) : List ℕ :=
  (List.range dates.length).filter (fun i => dates.getD i 0 = d)

/-- `Person._get_day_indices` : per-day index groups
(`[np.where(dates == day)[0] for day in np.unique(dates) if np.any(dates == day)]`). -/
def getDayIndices (dates : List ℤ) : List (List ℕ) :=
  ((npUnique dates).filter (fun d => ¬ (npWhereEq dates d).isEmpty)).map
    (fun d => npWhereEq dates d)

/-- Behavioural parameters of `Person.__init__` (the two-element
`*_per_day` lists are modelled as pairs of their `[0]`/`[1]` entries). -/
structure PersonCfg where
  name : String
  outside_hours_weekdays : List (ℚ × ℚ)
  outside_hours_weekend : List (ℚ × ℚ)
  sleep_hours : ℚ × ℚ
  window_open_per_day : ℤ × ℤ
  window_open_duration : ℤ × ℤ
  door_open_per_day : ℤ × ℤ
  door_open_duration : ℤ × ℤ
  room_per_day : ℤ × ℤ
  room_duration : ℤ × ℤ

/-- `Person._is_outside` : hour falls in any configured `[start, end)`
interval of the day-type's list (`wkdays`/`wkend` are
`self.outside_hours_weekdays` / `self.outside_hours_weekend`). -/
def isOutside (wkdays wkend : List (ℚ × ℚ)) (hour : ℚ) (weekday : ℕ) : Bool :=
  let hoursList := if weekday < 5 then wkdays else wkend
  hoursList.any (fun se => decide (se.1 ≤ hour ∧ hour < se.2))

/-- `Person._generate_inside`. -/
def generateInside (wkdays wkend : List (ℚ × ℚ)) (tl : Timeline) : List ℕ :=
  tl.map (fun t => if isOutside wkdays wkend t.hour t.weekday then 0 else 1)

/-- `Person._generate_sleeping` (`sh` is `self.sleep_hours`) :
`1 if (start <= hour < end if start < end else hour >= start or hour < end) else 0`. -/
def generateSleeping (sh : ℚ × ℚ) (tl : Timeline) : List ℕ :=
  tl.map (fun t =>
    if (if sh.1 < sh.2
        then sh.1 ≤ t.hour ∧ t.hour < sh.2
        else t.hour ≥ sh.1 ∨ t.hour < sh.2)
    then 1 else 0)

/-- The repeated comprehension
`[i for i in day_indices if inside[i] and not sleeping[i]]`. -/
def validIdx (dayIdx : List ℕ) (inside sleeping : List ℕ) : List ℕ :=
  dayIdx.filter (fun i => inside.getD i 0 ≠ 0 ∧ sleeping.getD i 0 = 0)

/-- The room1 fill loop, structurally on the iteration count:
`for i in range(start_idx, end_idx)` performs `end_idx - start_idx`
iterations; `if i >= n: break; if inside[i] and not sleeping[i]: room1[i] = 1`. -/
def fillRoom1Aux (inside sleeping : List ℕ) (n : ℕ) : List ℕ → ℕ → ℕ → List ℕ
  | room1, _, 0 => room1
  | room1, i, c + 1 =>
    if n ≤ i then room1
    else
      fillRoom1Aux inside sleeping n
        (if inside.getD i 0 ≠ 0 ∧ sleeping.getD i 0 = 0 then room1.set i 1 else room1)
        (i + 1) c

/-- `for i in range(start_idx, end_idx): if i >= n: break;
if inside[i] and not sleeping[i]: room1[i] = 1`. -/
def fillRoom1 (inside sleeping : List ℕ) (n : ℕ) (room1 : List ℕ)
    (i : ℕ) (endIdx : ℤ) : List ℕ :=
  fillRoom1Aux inside sleeping n room1 i (endIdx - (i : ℤ)).toNat

/-- The window fill loop, structurally on the iteration count:
`if not inside[i] or sleeping[i]: break; window_state[i] = 1`. -/
def fillWindowAux (inside sleeping : List ℕ) : List ℕ → ℕ → ℕ → List ℕ
  | w, _, 0 => w
  | w, i, c + 1 =>
    if inside.getD i 0 = 0 ∨ sleeping.getD i 0 ≠ 0 then w
    else fillWindowAux inside sleeping (w.set i 1) (i + 1) c

/-- `for i in range(start_idx, stop): if not inside[i] or sleeping[i]: break;
window_state[i] = 1`. -/
def fillWindow (inside sleeping : List ℕ) (w : List ℕ) (i : ℕ) (endIdx : ℤ) : List ℕ :=
  fillWindowAux inside sleeping w i (endIdx - (i : ℤ)).toNat

/-- The door fill loop, structurally on the iteration count:
`if i >= n: break; door_state[i] = 1`. -/
def fillDoorAux (n : ℕ) : List ℕ → ℕ → ℕ → List ℕ
  | d, _, 0 => d
  | d, i, c + 1 =>
    if n ≤ i then d
    else fillDoorAux n (d.set i 1) (i + 1) c

/-- `for i in range(start_idx, stop): if i >= n: break; door_state[i] = 1`. -/
def fillDoor (n : ℕ) (d : List ℕ) (i : ℕ) (endIdx : ℤ) : List ℕ :=
  fillDoorAux n d i (endIdx - (i : ℤ)).toNat

/-- One room1 event: compute `valid`, `continue` if empty, else draw a
start via `choice`, a duration via `integers`, and fill. -/
def room1Event (durRange : ℤ × ℤ) (dayIdx : List ℕ) (inside sleeping : List ℕ)
    (n : ℕ) (room1 : List ℕ) (g : RNG) : Option (List ℕ × RNG) :=
  let valid := validIdx dayIdx inside sleeping
  if valid.isEmpty then some (room1, g)
  else
    match npChoice valid g with
    | none => none
    | some (startIdx, g) =>
      match npIntegers durRange.1 (durRange.2 + 1) g with
      | none => none
      | some (dur, g) =>
        let endIdx : ℤ := min ((startIdx : ℤ) + dur) ((dayIdx.getLastD 0 : ℤ) + 1)
        some (fillRoom1 inside sleeping n room1 startIdx endIdx, g)

/-- `for _ in range(n_periods)` over room1 events. -/
def room1Events (durRange : ℤ × ℤ) (dayIdx : List ℕ) (inside sleeping : List ℕ)
    (n : ℕ) : ℕ → List ℕ → RNG → Option (List ℕ × RNG)
  | 0, room1, g => some (room1, g)
  | k + 1, room1, g =>
    match room1Event durRange dayIdx inside sleeping n room1 g with
    | none => none
    | some (room1', g') => room1Events durRange dayIdx inside sleeping n k room1' g'

/-- The per-day loop of `Person._generate_room1` (`perDay` is
`self.room_per_day`, `durRange` is `self.room_duration`). -/
def room1Days (perDay durRange : ℤ × ℤ) (inside sleeping : List ℕ) (n : ℕ) :
    List (List ℕ) → List ℕ → RNG → Option (List ℕ × RNG)
  | [], room1, g => some (room1, g)
  | d :: ds, room1, g =>
    match npIntegers perDay.1 (perDay.2 + 1) g with
    | none => none
    | some (nPeriods, g') =>
      match room1Events durRange d inside sleeping n nPeriods.toNat room1 g' with
      | none => none
      | some (room1', g'') => room1Days perDay durRange inside sleeping n ds room1' g''

/-- `Person._generate_room1`. -/
def generateRoom1 (perDay durRange : ℤ × ℤ) (tl : Timeline) (inside sleeping : List ℕ)
    (g : RNG) : Option (List ℕ × RNG) :=
  let n := tl.length
  let room1 : List ℕ := List.replicate n 0
  if n = 0 then some (room1, g)
  else room1Days perDay durRange inside sleeping n (getDayIndices (tl.map TP.date)) room1 g

/-- One window event. -/
def windowEvent (durRange : ℤ × ℤ) (dayIdx : List ℕ) (inside sleeping : List ℕ)
    (w : List ℕ) (g : RNG) : Option (List ℕ × RNG) :=
  let valid := validIdx dayIdx inside sleeping
  if valid.isEmpty then some (w, g)
  else
    match npChoice valid g with
    | none => none
    | some (startIdx, g) =>
      match npIntegers durRange.1 (durRange.2 + 1) g with
      | none => none
      | some (dur, g) =>
        let endIdx : ℤ := min ((startIdx : ℤ) + dur) ((dayIdx.getLastD 0 : ℤ) + 1)
        some (fillWindow inside sleeping w startIdx endIdx, g)

/-- `for _ in range(n_opens)` over window events. -/
def windowEvents (durRange : ℤ × ℤ) (dayIdx : List ℕ) (inside sleeping : List ℕ) :
    ℕ → List ℕ → RNG → Option (List ℕ × RNG)
  | 0, w, g => some (w, g)
  | k + 1, w, g =>
    match windowEvent durRange dayIdx inside sleeping w g with
    | none => none
    | some (w', g') => windowEvents durRange dayIdx inside sleeping k w' g'

/-- The per-day loop of `Person._generate_window_state` (`perDay` is
`self.window_open_per_day`, `durRange` is `self.window_open_duration`). -/
def windowDays (perDay durRange : ℤ × ℤ) (inside sleeping : List ℕ) :
    List (List ℕ) → List ℕ → RNG → Option (List ℕ × RNG)
  | [], w, g => some (w, g)
  | d :: ds, w, g =>
    match npIntegers perDay.1 (perDay.2 + 1) g with
    | none => none
    | some (nOpens, g') =>
      match windowEvents durRange d inside sleeping nOpens.toNat w g' with
      | none => none
      | some (w', g'') => windowDays perDay durRange inside sleeping ds w' g''

/-- `Person._generate_window_state`. -/
def generateWindow (perDay durRange : ℤ × ℤ) (tl : Timeline) (inside sleeping : List ℕ)
    (g : RNG) : Option (List ℕ × RNG) :=
  let n := tl.length
  windowDays perDay durRange inside sleeping (getDayIndices (tl.map TP.date))
    (List.replicate n 0) g

/-- `door_state[1:] = (inside[1:] != inside[:-1]).astype(int)` applied to
the all-zero initial array. -/
def doorTransitions (inside : List ℕ) : List ℕ :=
  (List.range inside.length).map (fun i =>
    if i = 0 then 0
    else if inside.getD i 0 ≠ inside.getD (i - 1) 0 then 1 else 0)

/-- One door event (fills unconditionally, bounded by day end and axis length). -/
def doorEvent (durRange : ℤ × ℤ) (dayIdx : List ℕ) (inside sleeping : List ℕ)
    (n : ℕ) (d : List ℕ) (g : RNG) : Option (List ℕ × RNG) :=
  let valid := validIdx dayIdx inside sleeping
  if valid.isEmpty then some (d, g)
  else
    match npChoice valid g with
    | none => none
    | some (startIdx, g) =>
      match npIntegers durRange.1 (durRange.2 + 1) g with
      | none => none
      | some (dur, g) =>
        let endIdx : ℤ := min ((startIdx : ℤ) + dur) ((dayIdx.getLastD 0 : ℤ) + 1)
        some (fillDoor n d startIdx endIdx, g)

/-- `for _ in range(n_opens)` over door events. -/
def doorEvents (durRange : ℤ × ℤ) (dayIdx : List ℕ) (inside sleeping : List ℕ)
    (n : ℕ) : ℕ → List ℕ → RNG → Option (List ℕ × RNG)
  | 0, d, g => some (d, g)
  | k + 1, d, g =>
    match doorEvent durRange dayIdx inside sleeping n d g with
    | none => none
    | some (d', g') => doorEvents durRange dayIdx inside sleeping n k d' g'

/-- The per-day loop of `Person._generate_door_state` (`perDay` is
`self.door_open_per_day`, `durRange` is `self.door_open_duration`). -/
def doorDays (perDay durRange : ℤ × ℤ) (inside sleeping : List ℕ) (n : ℕ) :
    List (List ℕ) → List ℕ → RNG → Option (List ℕ × RNG)
  | [], d, g => some (d, g)
  | dd :: ds, d, g =>
    match npIntegers perDay.1 (perDay.2 + 1) g with
    | none => none
    | some (nOpens, g') =>
      match doorEvents durRange dd inside sleeping n nOpens.toNat d g' with
      | none => none
      | some (d', g'') => doorDays perDay durRange inside sleeping n ds d' g''

/-- `Person._generate_door_state`. -/
def generateDoor (perDay durRange : ℤ × ℤ) (tl : Timeline) (inside sleeping : List ℕ)
    (g : RNG) : Option (List ℕ × RNG) :=
  let n := tl.length
  doorDays perDay durRange inside sleeping n (getDayIndices (tl.map TP.date))
    (doorTransitions inside) g

/-- The five-array tuple `(inside, sleeping, room1, windows, doors)`. -/
structure PersonOutput where
  inside : List ℕ
  sleeping : List ℕ
  room1 : List ℕ
  window : List ℕ
  door : List ℕ

/-- Mutable state of a `Person` object: configuration, private random
stream, optionally bound timeline, optional generation cache. -/
structure Person where
  cfg : PersonCfg
  rng : RNG
  timestamps : Option Timeline
  timelineCache : Option PersonOutput

/-- `Person.__init__(...)` : fresh stream, no timeline, no cache. -/
def mkPerson (cfg : PersonCfg) (f : ℕ → ℕ) : Person :=
  ⟨cfg, ⟨f, 0⟩, none, none⟩

/-- `Person.set_timeline` : bind the axis and reset the cache. -/
def Person.set_timeline (p : Person) (tl : Timeline) : Person :=
  { p with timestamps := some tl, timelineCache := none }

/-- `Person.generate` : return the cache when present, raise (`none`) when
no timeline is bound, else run the five stages in order and cache.
The successful result carries the updated person state. -/
def Person.generate (p : Person) : Option (PersonOutput × Person) :=
  match p.timelineCache with
  | some c => some (c, p)
  | none =>
    match p.timestamps with
    | none => none
    | some tl =>
      let inside := generateInside p.cfg.outside_hours_weekdays
        p.cfg.outside_hours_weekend tl
      let sleeping := generateSleeping p.cfg.sleep_hours tl
      match generateRoom1 p.cfg.room_per_day p.cfg.room_duration
          tl inside sleeping p.rng with
      | none => none
      | some (room1, g1) =>
        match generateWindow p.cfg.window_open_per_day
            p.cfg.window_open_duration tl inside sleeping g1 with
        | none => none
        | some (windows, g2) =>
          match generateDoor p.cfg.door_open_per_day
              p.cfg.door_open_duration tl inside sleeping g2 with
          | none => none
          | some (doors, g3) =>
            let out : PersonOutput := ⟨inside, sleeping, room1, windows, doors⟩
            some (out, { p with rng := g3, timelineCache := some out })

/-- `Person.get_room1_state`. -/
def Person.get_room1_state (p : Person) : Option (List ℕ) :=
  p.timelineCache.map PersonOutput.room1

/-- `Person.get_window_state`. -/
def Person.get_window_state (p : Person) : Option (List ℕ) :=
  p.timelineCache.map PersonOutput.window

/-- `Person.get_door_state`. -/
def Person.get_door_state (p : Person) : Option (List ℕ) :=
  p.timelineCache.map PersonOutput.door

/-- The process-wide `np.random` stream used by `Apartment`
(`np.random.rand`, `np.random.randint`): raw rational draws with a counter. -/
structure GRng where
  f : ℕ → ℚ
  k : ℕ

/-- Consume one raw draw of the global stream. -/
def GRng.next (g : GRng) : ℚ × GRng := (g.f g.k, ⟨g.f, g.k + 1⟩)

/-- `np.random.randint(low, highEx)` : uniform over `[low, highEx)`;
raises (`none`) when `low >= highEx`. -/
def npRandInt (low highEx : ℤ) (g : GRng) : Option (ℤ × GRng) :=
  if low < highEx then
    let (q, g') := g.next
    some (low + ((⌊q⌋.toNat : ℤ) % (highEx - low)), g')
  else none

/-- Indexing a numpy 1-d array with a (possibly negative) Python int:
negative indices wrap once from the end; out of range raises (`none`). -/
def pyGet (l : List ℕ) (i : ℤ) : Option ℕ :=
  if 0 ≤ i then l.get? i.toNat
  else if 0 ≤ (l.length : ℤ) + i then l.get? ((l.length : ℤ) + i).toNat
  else none

/-- Resolve one bound of a slice `a[i:e]`: negative bounds wrap once,
then the bound is clamped into `[0, len]`. -/
def sliceBound (n : ℕ) (j : ℤ) : ℕ :=
  (min (max (if j < 0 then (n : ℤ) + j else j) 0) (n : ℤ)).toNat

/-- Overwrite positions `[s, t)` (counting from `idx`) with `1`. -/
def setRangeOnes : List ℕ → ℕ → ℕ → ℕ → List ℕ
  | [], _, _, _ => []
  | x :: xs, idx, s, t =>
    (if s ≤ idx ∧ idx < t then 1 else x) :: setRangeOnes xs (idx + 1) s t

/-- `a[i:e] = 1` on a numpy int array. -/
def sliceSetOnes (l : List ℕ) (i e : ℤ) : List ℕ :=
  setRangeOnes l 0 (sliceBound l.length i) (sliceBound l.length e)

/-- The scan loop of `Apartment._simulate_person_motion`, with explicit
fuel (the Python `while` has no bound; whenever every drawn duration is
at least 1 the cursor strictly advances, so `n + 1` steps suffice and the
fuel is never the reason a run stops).  Alongside the motion array the
model records the list of `(start, end)` spans marked by the successful
Bernoulli trials — a ghost component used only to state burst properties.
`room1_state[i]` on an ungenerated person dereferences `None`
(`TypeError`); a raise is `.error`. -/
def simMotionAux (prob : ℚ) (minD maxD : ℤ) (n : ℕ) (room1 : Option (List ℕ)) :
    ℕ → ℤ → List ℕ → List (ℤ × ℤ) → GRng →
    Except String (List ℕ × List (ℤ × ℤ) × GRng)
  | 0, i, motion, spans, g =>
    if i < (n : ℤ) then .error "nontermination" else .ok (motion, spans, g)
  | fuel + 1, i, motion, spans, g =>
    if i < (n : ℤ) then
      match room1 with
      | none => .error "TypeError"
      | some r1 =>
        match pyGet r1 i with
        | none => .error "IndexError"
        | some v =>
          if 0 < v then
            let (q, g') := g.next
            if q < prob then
              match npRandInt minD (maxD + 1) g' with
              | none => .error "ValueError"
              | some (dur, g'') =>
                let endIdx : ℤ := min (i + dur) (n : ℤ)
                simMotionAux prob minD maxD n room1 fuel endIdx
                  (sliceSetOnes motion i endIdx) (spans ++ [(i, endIdx)]) g''
            else simMotionAux prob minD maxD n room1 fuel (i + 1) motion spans g'
          else simMotionAux prob minD maxD n room1 fuel (i + 1) motion spans g
    else .ok (motion, spans, g)

/-- State of an `Apartment` object. -/
structure Apartment where
  timestamps : Timeline
  persons : List Person
  prob_movement : ℚ
  min_duration : ℤ
  max_duration : ℤ
  motionState : Option (List ℕ)

/-- `Apartment._simulate_person_motion`. -/
def Apartment.simulate_person_motion (a : Apartment) (p : Person) (g : GRng) :
    Except String (List ℕ × List (ℤ × ℤ) × GRng) :=
  let n := a.timestamps.length
  simMotionAux a.prob_movement a.min_duration a.max_duration n
    p.get_room1_state (n + 1) 0 (List.replicate n 0) [] g

/-- `np.logical_or(x, y).astype(int)` on equal-length 0/1 int arrays. -/
def zipOrInt (x y : List ℕ) : List ℕ :=
  List.zipWith (fun a b => if a ≠ 0 ∨ b ≠ 0 then 1 else 0) x y

/-- The per-person loop of `Apartment._generate_motion`. -/
def genMotionAux (a : Apartment) : List Person → List ℕ → GRng →
    Except String (List ℕ × GRng)
  | [], motion, g => .ok (motion, g)
  | p :: ps, motion, g =>
    match a.simulate_person_motion p g with
    | .error e => .error e
    | .ok (pm, _, g') => genMotionAux a ps (zipOrInt motion pm) g'

/-- `Apartment._generate_motion`. -/
def Apartment.generate_motion (a : Apartment) (g : GRng) :
    Except String (List ℕ × GRng) :=
  genMotionAux a a.persons (List.replicate a.timestamps.length 0) g

/-- `Apartment.generate` : store the motion array. -/
def Apartment.generate (a : Apartment) (g : GRng) :
    Except String (Apartment × GRng) :=
  match a.generate_motion g with
  | .error e => .error e
  | .ok (m, g') => .ok ({ a with motionState := some m }, g')

/-- `Apartment.get_motion` : the cached motion array, absent before
`generate()`. -/
def Apartment.get_motion (a : Apartment) : Option (List ℕ) := a.motionState

/-- Python truthiness of an array cell that is either an int or `None`. -/
def pyTruthy : Option ℤ → Bool
  | none => false
  | some z => z ≠ 0

/-- numpy's object-dtype `logical_or` loop (`npy_ObjectLogicalOr`):
return the first operand when it is truthy, else the second
(Python `x or y`). -/
def pyOr (x y : Option ℤ) : Option ℤ := if pyTruthy x then x else y

/-- One `state = np.logical_or(state, person_state)` step.  An absent
person state is the `None` object: it broadcasts as a 0-d object scalar
and the object loop applies.  An array operand must match the length
(else broadcasting raises).  On 0/1 entries the object loop and the
boolean loop agree once `astype(int)` is applied, so one elementwise
model covers both dtype paths reachable here. -/
def aggStep (state : List (Option ℤ)) :
    Option (List ℕ) → Except String (List (Option ℤ))
  | none => .ok (state.map (fun x => pyOr x none))
  | some arr =>
    if arr.length = state.length then
      .ok (List.zipWith (fun (x : Option ℤ) (y : ℕ) => pyOr x (some (y : ℤ))) state arr)
    else .error "ValueError"

/-- `state.astype(int)` : `int(None)` raises `TypeError`. -/
def astypeInt (state : List (Option ℤ)) : Except String (List ℤ) :=
  if state.all Option.isSome then .ok (state.map (fun x => x.getD 0))
  else .error "TypeError"

/-- The fold of `Apartment._aggregate_person_state` followed by the final
`astype(int)`. -/
def aggregateStates : List (Option (List ℕ)) → List (Option ℤ) →
    Except String (List ℤ)
  | [], st => astypeInt st
  | s :: ss, st =>
    match aggStep st s with
    | .error e => .error e
    | .ok st' => aggregateStates ss st'

/-- `Apartment._aggregate_person_state` applied to a list of per-person
states (the `state_func(person)` values). -/
def Apartment.aggregate_person_state (a : Apartment)
    (states : List (Option (List ℕ))) : Except String (List ℤ) :=
  aggregateStates states (List.replicate a.timestamps.length (some (0 : ℤ)))

/-- `Apartment.get_window`. -/
def Apartment.get_window (a : Apartment) : Except String (List ℤ) :=
  a.aggregate_person_state (a.persons.map Person.get_window_state)

/-- `Apartment.get_door`. -/
def Apartment.get_door (a : Apartment) : Except String (List ℤ) :=
  a.aggregate_person_state (a.persons.map Person.get_door_state)

/-- Calling `generate()` on a list of persons in order (each person owns
its private stream; nothing is threaded between the calls beyond the
persons themselves).  Records each person's returned five-array tuple. -/
def generateSequence : List Person → List (Option PersonOutput)
  | [] => []
  | p :: ps => (Person.generate p).map Prod.fst :: generateSequence ps

/-! Concrete configurations, timelines and object states used to
instantiate the theorems below on executable inputs. -/

/-- A constant raw draw stream. -/
def zeroStream : ℕ → ℕ := fun _ => 0

/-- A constant raw rational draw stream. -/
def zeroQStream : ℕ → ℚ := fun _ => 0

/-- Empty five-array tuple, used as an `Option.getD` default. -/
def dfltPO : PersonOutput := ⟨[], [], [], [], []⟩

/-- A small benign configuration: never outside, one room and one window
event per day of duration one, no random door opens. -/
def w1Cfg : PersonCfg :=
  { name := "w1", outside_hours_weekdays := [], outside_hours_weekend := [],
    sleep_hours := (2, 3), window_open_per_day := (1, 1),
    window_open_duration := (1, 1), door_open_per_day := (0, 0),
    door_open_duration := (1, 1), room_per_day := (1, 1),
    room_duration := (1, 1) }

/-- Two benign timestamps at noon and 1pm of one day. -/
def w1Tl : Timeline := [⟨12, 0, 0⟩, ⟨13, 0, 0⟩]

/-- A bound person over `w1Tl`. -/
def w1P : Person := (mkPerson w1Cfg zeroStream).set_timeline w1Tl

/-- Its generated result. -/
def w1R : PersonOutput × Person := (Person.generate w1P).getD (dfltPO, w1P)

/-- The §8 scenario configuration: `outside_hours_weekdays=[(9,17)]`,
`sleep_hours=(23,7)`, all event counts pinned to zero. -/
def c2Cfg : PersonCfg :=
  { name := "p", outside_hours_weekdays := [(9, 17)], outside_hours_weekend := [],
    sleep_hours := (23, 7), window_open_per_day := (0, 0),
    window_open_duration := (1, 1), door_open_per_day := (0, 0),
    door_open_duration := (1, 1), room_per_day := (0, 0),
    room_duration := (1, 1) }

/-- §8 axis: 1440 one-minute timestamps of a single day with the given
weekday and date key. -/
def scenarioDay (wd : ℕ) (dt : ℤ) : Timeline :=
  (List.range 1440).map (fun i : ℕ => (⟨(i : ℚ) / 60, wd, dt⟩ : TP))

/-- §8 scenario person on a weekday (weekday 0 = Monday). -/
def c2CexP : Person := (mkPerson c2Cfg zeroStream).set_timeline (scenarioDay 0 0)

/-- §8 scenario configuration with one room event per day. -/
def w2Cfg : PersonCfg := { c2Cfg with room_per_day := (1, 1) }

/-- §8 scenario person with one room event per day. -/
def w2P : Person := (mkPerson w2Cfg zeroStream).set_timeline (scenarioDay 0 0)

/-- Its generated result. -/
def w2R : PersonOutput × Person := (Person.generate w2P).getD (dfltPO, w2P)

/-- A configuration whose sleep interval is degenerate: `start = end = 8`. -/
def c3Cfg : PersonCfg :=
  { name := "c3", outside_hours_weekdays := [], outside_hours_weekend := [],
    sleep_hours := (8, 8), window_open_per_day := (0, 0),
    window_open_duration := (1, 1), door_open_per_day := (0, 0),
    door_open_duration := (1, 1), room_per_day := (0, 0),
    room_duration := (1, 1) }

/-- One timestamp at noon. -/
def c3Tl : Timeline := [⟨12, 0, 0⟩]

/-- A bound person with configuration `c3Cfg` over `c3Tl`. -/
def w4P : Person := (mkPerson c3Cfg zeroStream).set_timeline c3Tl

/-- Its generated result. -/
def w4R : PersonOutput × Person := (Person.generate w4P).getD (dfltPO, w4P)

/-- A person identical to `w4P` in every field except the name. -/
def w5Q : Person := ⟨{ c3Cfg with name := "other" }, w4P.rng, w4P.timestamps, w4P.timelineCache⟩

/-- Window/door arrays of the first pre-generated person. -/
def w6PO1 : PersonOutput := ⟨[1, 1], [0, 0], [0, 0], [1, 0], [0, 0]⟩

/-- Window/door arrays of the second pre-generated person. -/
def w6PO2 : PersonOutput := ⟨[1, 1], [0, 0], [0, 0], [0, 0], [0, 1]⟩

/-- A person carrying the first cache (already generated). -/
def w6P1 : Person := ⟨w1Cfg, ⟨zeroStream, 0⟩, none, some w6PO1⟩

/-- A person carrying the second cache (already generated). -/
def w6P2 : Person := ⟨c3Cfg, ⟨zeroStream, 0⟩, none, some w6PO2⟩

/-- A two-instant axis. -/
def w6Tl : Timeline := [⟨0, 0, 0⟩, ⟨(1 : ℚ), 0, 0⟩]

/-- Apartment holding both generated persons. -/
def w6Apt : Apartment := ⟨w6Tl, [w6P1, w6P2], 1, 1, 10, none⟩

/-- The same apartment with the persons in the opposite order. -/
def w6AptPerm : Apartment := ⟨w6Tl, [w6P2, w6P1], 1, 1, 10, none⟩

/-- An empty apartment over the same axis. -/
def w6AptEmpty : Apartment := ⟨w6Tl, [], 1, 1, 10, none⟩

/-- A generated person whose room1 array is `[1, 0]`. -/
def w7P : Person := ⟨c3Cfg, ⟨zeroStream, 0⟩, none, some ⟨[1, 1], [0, 0], [1, 0], [0, 0], [0, 0]⟩⟩

/-- Apartment for the motion witness. -/
def w7Apt : Apartment := ⟨w6Tl, [w7P], 1, 1, 10, none⟩

/-- Global stream for the motion witness. -/
def w7G : GRng := ⟨zeroQStream, 0⟩

/-- A bound but never generated person. -/
def c8P : Person := mkPerson c3Cfg zeroStream

/-- Apartment with a one-instant axis holding only the ungenerated person. -/
def c8Apt : Apartment := ⟨[⟨0, 0, 0⟩], [c8P], 1, 1, 10, none⟩

/-- A generated person over the one-instant axis (window `[1]`, door `[0]`). -/
def c8Q : Person := ⟨c3Cfg, ⟨zeroStream, 0⟩, none, some ⟨[1], [0], [0], [1], [0]⟩⟩

/-- Apartment whose ungenerated person is followed by a generated one. -/
def c8Apt2 : Apartment := ⟨[⟨0, 0, 0⟩], [c8P, c8Q], 1, 1, 10, none⟩

/-- A configuration whose door-open duration range is degenerate
(`low = 5 > 3 = high`) while every per-day event count is pinned to zero. -/
def c9CexCfg : PersonCfg :=
  { name := "c9", outside_hours_weekdays := [], outside_hours_weekend := [],
    sleep_hours := (2, 3), window_open_per_day := (0, 0),
    window_open_duration := (1, 1), door_open_per_day := (0, 0),
    door_open_duration := (5, 3), room_per_day := (0, 0),
    room_duration := (1, 1) }

/-- Bound person with the degenerate door-duration configuration. -/
def c9CexP : Person := (mkPerson c9CexCfg zeroStream).set_timeline c3Tl

/-- A configuration whose room per-day count range is degenerate
(`low = 3 > 1 = high`). -/
def w9Cfg : PersonCfg :=
  { name := "w9", outside_hours_weekdays := [], outside_hours_weekend := [],
    sleep_hours := (2, 3), window_open_per_day := (0, 0),
    window_open_duration := (1, 1), door_open_per_day := (0, 0),
    door_open_duration := (1, 1), room_per_day := (3, 1),
    room_duration := (1, 1) }

/-! ## Helper lemmas -/

/-- An index holding `1` after `set i 1` is `i` itself or already held `1`. -/
theorem getD_set_one_cases (l : List ℕ) (i j : ℕ)
    (h : (l.set i 1).getD j 0 = 1) : i = j ∨ l.getD j 0 = 1 := by
  by_cases hij : i = j
  · exact Or.inl hij
  · right
    rw [List.getD_eq_getElem?_getD, List.getElem?_set] at h
    rw [if_neg hij] at h
    rwa [List.getD_eq_getElem?_getD]

/-- Reading an all-zero array yields `0` at every index. -/
theorem getD_replicate_zero (n j : ℕ) : (List.replicate n (0 : ℕ)).getD j 0 = 0 := by
  rw [List.getD_eq_getElem?_getD, List.getElem?_replicate]
  split <;> rfl

/-- Membership is preserved by ascending insertion. -/
theorem mem_insertAsc {a x : ℤ} : ∀ {l : List ℤ}, a ∈ insertAsc x l ↔ a = x ∨ a ∈ l
  | [] => by simp [insertAsc]
  | y :: ys => by
    by_cases hxy : x ≤ y
    · simp [insertAsc, hxy]
    · simp [insertAsc, hxy, mem_insertAsc (l := ys)]
      tauto

/-- Membership is preserved by the ascending sort. -/
theorem mem_sortAsc {a : ℤ} : ∀ {l : List ℤ}, a ∈ sortAsc l ↔ a ∈ l
  | [] => Iff.rfl
  | x :: xs => by
    simp [sortAsc, mem_insertAsc, mem_sortAsc (l := xs)]

/-- Membership is preserved by adjacent deduplication. -/
theorem mem_dedupAdj {a : ℤ} : ∀ {l : List ℤ}, a ∈ dedupAdj l ↔ a ∈ l
  | [] => Iff.rfl
  | [x] => Iff.rfl
  | x :: y :: xs => by
    have ih := mem_dedupAdj (a := a) (l := y :: xs)
    simp only [dedupAdj]
    split
    · next hxy =>
        subst hxy
        rw [ih]
        simp only [List.mem_cons]
        tauto
    · next hxy =>
        simp only [List.mem_cons]
        rw [ih]
        simp [List.mem_cons]

/-- A nonempty axis yields a nonempty day partition. -/
theorem getDayIndices_ne_nil {dates : List ℤ} (h : dates ≠ []) :
    getDayIndices dates ≠ [] := by
  obtain ⟨d, hd⟩ := List.exists_mem_of_ne_nil dates h
  have hmemu : d ∈ npUnique dates := by
    unfold npUnique
    rw [mem_dedupAdj, mem_sortAsc]
    exact hd
  obtain ⟨i, hi⟩ := List.mem_iff_getElem?.mp hd
  have hiwhere : i ∈ npWhereEq dates d := by
    unfold npWhereEq
    rw [List.mem_filter, List.mem_range]
    have hlen : i < dates.length := (List.getElem?_eq_some.mp hi).1
    refine ⟨hlen, ?_⟩
    simp [List.getD_eq_getElem?_getD, hi]
  have hne : ¬ (npWhereEq dates d).isEmpty := by
    cases hw : npWhereEq dates d with
    | nil => rw [hw] at hiwhere; cases hiwhere
    | cons a as => simp [List.isEmpty]
  have : d ∈ (npUnique dates).filter (fun e => ¬ (npWhereEq dates e).isEmpty) := by
    rw [List.mem_filter]
    exact ⟨hmemu, by simpa using hne⟩
  unfold getDayIndices
  exact List.ne_nil_of_mem (List.mem_map_of_mem _ this)

/-- A degenerate per-day count range makes the first day of the room1
loop raise. -/
theorem room1Days_degenerate {perDay durRange : ℤ × ℤ}
    {inside sleeping : List ℕ} {n : ℕ} {d : List ℕ} {ds : List (List ℕ)}
    {room1 : List ℕ} {g : RNG} (h : perDay.1 > perDay.2) :
    room1Days perDay durRange inside sleeping n (d :: ds) room1 g = none := by
  have : ¬ (perDay.1 < perDay.2 + 1) := by omega
  simp [room1Days, npIntegers, this]

/-- The window fill only ever sets indices that are inside-and-awake. -/
theorem fillWindowAux_inv (inside sleeping : List ℕ) :
    ∀ (c i : ℕ) (w : List ℕ),
      (∀ j, w.getD j 0 = 1 → inside.getD j 0 ≠ 0 ∧ sleeping.getD j 0 = 0) →
      ∀ j, (fillWindowAux inside sleeping w i c).getD j 0 = 1 →
        inside.getD j 0 ≠ 0 ∧ sleeping.getD j 0 = 0 := by
  intro c
  induction c with
  | zero => intro i w hw j h; exact hw j h
  | succ c ih =>
    intro i w hw j h
    rw [fillWindowAux] at h
    split at h
    · exact hw j h
    · next hcond =>
      refine ih (i + 1) (w.set i 1) ?_ j h
      intro j' hj'
      rcases getD_set_one_cases w i j' hj' with heq | hold
      · subst heq
        push_neg at hcond
        exact ⟨hcond.1, by simpa using hcond.2⟩
      · exact hw j' hold

/-- Past the first index violating inside-and-awake, the window fill
leaves the array untouched (early termination, no skipping). -/
theorem fillWindowAux_stops (inside sleeping : List ℕ) :
    ∀ (c i : ℕ) (w : List ℕ) (j : ℕ), i ≤ j →
      ¬(inside.getD j 0 ≠ 0 ∧ sleeping.getD j 0 = 0) →
      ∀ j', j ≤ j' →
        (fillWindowAux inside sleeping w i c).getD j' 0 = w.getD j' 0 := by
  intro c
  induction c with
  | zero => intro i w j _ _ j' _; rfl
  | succ c ih =>
    intro i w j hij hj j' hjj'
    rw [fillWindowAux]
    split
    · rfl
    · next hcond =>
      have hinej : i ≠ j := by
        intro he
        subst he
        push_neg at hcond
        exact hj ⟨hcond.1, by simpa using hcond.2⟩
      have hij1 : i + 1 ≤ j := by omega
      rw [ih (i + 1) (w.set i 1) j hij1 hj j' hjj']
      have hinej' : i ≠ j' := by omega
      rw [List.getD_eq_getElem?_getD, List.getElem?_set, if_neg hinej',
        ← List.getD_eq_getElem?_getD]

/-- One window event preserves the inside-and-awake invariant. -/
theorem windowEvent_inv {durRange : ℤ × ℤ} {dayIdx inside sleeping w : List ℕ}
    {g : RNG} {w' : List ℕ} {g' : RNG}
    (h : windowEvent durRange dayIdx inside sleeping w g = some (w', g'))
    (hw : ∀ j, w.getD j 0 = 1 → inside.getD j 0 ≠ 0 ∧ sleeping.getD j 0 = 0) :
    ∀ j, w'.getD j 0 = 1 → inside.getD j 0 ≠ 0 ∧ sleeping.getD j 0 = 0 := by
  simp only [windowEvent] at h
  split at h
  · cases h; exact hw
  · split at h
    · cases h
    · next s g1 hch =>
      split at h
      · cases h
      · next dur g2 hint =>
        cases h
        unfold fillWindow
        exact fillWindowAux_inv inside sleeping _ s w hw

/-- The per-day window event loop preserves the invariant. -/
theorem windowEvents_inv {durRange : ℤ × ℤ} {dayIdx inside sleeping : List ℕ} :
    ∀ (k : ℕ) (w : List ℕ) (g : RNG) (w' : List ℕ) (g' : RNG),
      windowEvents durRange dayIdx inside sleeping k w g = some (w', g') →
      (∀ j, w.getD j 0 = 1 → inside.getD j 0 ≠ 0 ∧ sleeping.getD j 0 = 0) →
      ∀ j, w'.getD j 0 = 1 → inside.getD j 0 ≠ 0 ∧ sleeping.getD j 0 = 0 := by
  intro k
  induction k with
  | zero => intro w g w' g' h hw; cases h; exact hw
  | succ k ih =>
    intro w g w' g' h hw
    rw [windowEvents] at h
    split at h
    · cases h
    · next w1 g1 hev =>
      exact ih w1 g1 w' g' h (windowEvent_inv hev hw)

/-- The day loop of the window generator preserves the invariant. -/
theorem windowDays_inv {perDay durRange : ℤ × ℤ} {inside sleeping : List ℕ} :
    ∀ (ds : List (List ℕ)) (w : List ℕ) (g : RNG) (w' : List ℕ) (g' : RNG),
      windowDays perDay durRange inside sleeping ds w g = some (w', g') →
      (∀ j, w.getD j 0 = 1 → inside.getD j 0 ≠ 0 ∧ sleeping.getD j 0 = 0) →
      ∀ j, w'.getD j 0 = 1 → inside.getD j 0 ≠ 0 ∧ sleeping.getD j 0 = 0 := by
  intro ds
  induction ds with
  | nil => intro w g w' g' h hw; cases h; exact hw
  | cons d ds ih =>
    intro w g w' g' h hw
    rw [windowDays] at h
    split at h
    · cases h
    · next cnt g1 hint =>
      split at h
      · cases h
      · next w1 g2 hev =>
        exact ih w1 g2 w' g' h (windowEvents_inv _ w g1 w1 g2 hev hw)

/-- Every index flagged open by `_generate_window_state` is
inside-and-awake. -/
theorem generateWindow_inv {perDay durRange : ℤ × ℤ} {tl : List TP}
    {inside sleeping : List ℕ} {g : RNG} {w' : List ℕ} {g' : RNG}
    (h : generateWindow perDay durRange tl inside sleeping g = some (w', g')) :
    ∀ j, w'.getD j 0 = 1 → inside.getD j 0 ≠ 0 ∧ sleeping.getD j 0 = 0 := by
  unfold generateWindow at h
  refine windowDays_inv _ _ _ _ _ h ?_
  intro j hj
  rw [getD_replicate_zero] at hj
  cases hj

/-- The room1 fill only ever sets indices that are inside-and-awake
(the per-index guard in the loop body). -/
theorem fillRoom1Aux_inv (inside sleeping : List ℕ) (n : ℕ) :
    ∀ (c i : ℕ) (room1 : List ℕ),
      (∀ j, room1.getD j 0 = 1 → inside.getD j 0 ≠ 0 ∧ sleeping.getD j 0 = 0) →
      ∀ j, (fillRoom1Aux inside sleeping n room1 i c).getD j 0 = 1 →
        inside.getD j 0 ≠ 0 ∧ sleeping.getD j 0 = 0 := by
  intro c
  induction c with
  | zero => intro i room1 hr j h; exact hr j h
  | succ c ih =>
    intro i room1 hr j h
    rw [fillRoom1Aux] at h
    split at h
    · exact hr j h
    · refine ih (i + 1) _ ?_ j h
      intro j' hj'
      by_cases hc : inside.getD i 0 ≠ 0 ∧ sleeping.getD i 0 = 0
      · rw [if_pos hc] at hj'
        rcases getD_set_one_cases room1 i j' hj' with heq | hold
        · subst heq; exact hc
        · exact hr j' hold
      · rw [if_neg hc] at hj'
        exact hr j' hj'

/-- One room1 event preserves the inside-and-awake invariant. -/
theorem room1Event_inv {durRange : ℤ × ℤ} {dayIdx inside sleeping : List ℕ}
    {n : ℕ} {room1 : List ℕ} {g : RNG} {r' : List ℕ} {g' : RNG}
    (h : room1Event durRange dayIdx inside sleeping n room1 g = some (r', g'))
    (hr : ∀ j, room1.getD j 0 = 1 → inside.getD j 0 ≠ 0 ∧ sleeping.getD j 0 = 0) :
    ∀ j, r'.getD j 0 = 1 → inside.getD j 0 ≠ 0 ∧ sleeping.getD j 0 = 0 := by
  simp only [room1Event] at h
  split at h
  · cases h; exact hr
  · split at h
    · cases h
    · next s g1 hch =>
      split at h
      · cases h
      · next dur g2 hint =>
        cases h
        unfold fillRoom1
        exact fillRoom1Aux_inv inside sleeping n _ s room1 hr

/-- The per-day room1 event loop preserves the invariant. -/
theorem room1Events_inv {durRange : ℤ × ℤ} {dayIdx inside sleeping : List ℕ}
    {n : ℕ} :
    ∀ (k : ℕ) (room1 : List ℕ) (g : RNG) (r' : List ℕ) (g' : RNG),
      room1Events durRange dayIdx inside sleeping n k room1 g = some (r', g') →
      (∀ j, room1.getD j 0 = 1 → inside.getD j 0 ≠ 0 ∧ sleeping.getD j 0 = 0) →
      ∀ j, r'.getD j 0 = 1 → inside.getD j 0 ≠ 0 ∧ sleeping.getD j 0 = 0 := by
  intro k
  induction k with
  | zero => intro room1 g r' g' h hr; cases h; exact hr
  | succ k ih =>
    intro room1 g r' g' h hr
    rw [room1Events] at h
    split at h
    · cases h
    · next r1 g1 hev =>
      exact ih r1 g1 r' g' h (room1Event_inv hev hr)

/-- The day loop of the room1 generator preserves the invariant. -/
theorem room1Days_inv {perDay durRange : ℤ × ℤ} {inside sleeping : List ℕ}
    {n : ℕ} :
    ∀ (ds : List (List ℕ)) (room1 : List ℕ) (g : RNG) (r' : List ℕ) (g' : RNG),
      room1Days perDay durRange inside sleeping n ds room1 g = some (r', g') →
      (∀ j, room1.getD j 0 = 1 → inside.getD j 0 ≠ 0 ∧ sleeping.getD j 0 = 0) →
      ∀ j, r'.getD j 0 = 1 → inside.getD j 0 ≠ 0 ∧ sleeping.getD j 0 = 0 := by
  intro ds
  induction ds with
  | nil => intro room1 g r' g' h hr; cases h; exact hr
  | cons d ds ih =>
    intro room1 g r' g' h hr
    rw [room1Days] at h
    split at h
    · cases h
    · next cnt g1 hint =>
      split at h
      · cases h
      · next r1 g2 hev =>
        exact ih r1 g2 r' g' h (room1Events_inv _ room1 g1 r1 g2 hev hr)

/-- Every index set by `_generate_room1` is inside-and-awake. -/
theorem generateRoom1_inv {perDay durRange : ℤ × ℤ} {tl : List TP}
    {inside sleeping : List ℕ} {g : RNG} {r' : List ℕ} {g' : RNG}
    (h : generateRoom1 perDay durRange tl inside sleeping g = some (r', g')) :
    ∀ j, r'.getD j 0 = 1 → inside.getD j 0 ≠ 0 ∧ sleeping.getD j 0 = 0 := by
  simp only [generateRoom1] at h
  split at h
  · cases h
    intro j hj
    rw [getD_replicate_zero] at hj
    cases hj
  · refine room1Days_inv _ _ _ _ _ h ?_
    intro j hj
    rw [getD_replicate_zero] at hj
    cases hj

/-- Cells of `_generate_inside` are `0` or `1`; out-of-range reads give `0`. -/
theorem generateInside_le_one (wkdays wkend : List (ℚ × ℚ)) (tl : List TP) (j : ℕ) :
    (generateInside wkdays wkend tl).getD j 0 ≤ 1 := by
  unfold generateInside
  rw [List.getD_eq_getElem?_getD, List.getElem?_map]
  cases h : tl[j]? with
  | none => exact Nat.zero_le _
  | some t =>
    show (if isOutside wkdays wkend t.hour t.weekday then 0 else 1) ≤ 1
    split <;> omega

/-- Generate-level invariant: on a fresh (uncached) generation, every
index set in the room1 or window array is inside (`inside = 1`) and not
sleeping (`sleeping = 0`), read within the same returned five-tuple. -/
theorem generate_room_window_inv (p : Person) (r : PersonOutput × Person)
    (hc : p.timelineCache = none) (h : Person.generate p = some r) :
    ∀ j, (r.1.room1.getD j 0 = 1 ∨ r.1.window.getD j 0 = 1) →
      r.1.inside.getD j 0 = 1 ∧ r.1.sleeping.getD j 0 = 0 := by
  obtain ⟨cfg, rng, ts, tc⟩ := p
  simp only at hc
  subst hc
  cases ts with
  | none => simp only [Person.generate] at h; cases h
  | some tl =>
    simp only [Person.generate] at h
    split at h
    · cases h
    · next room1 g1 heq =>
      split at h
      · cases h
      · next win g2 heqw =>
        split at h
        · cases h
        · next doors g3 heqd =>
          cases h
          intro j hj
          have hins := generateInside_le_one cfg.outside_hours_weekdays
            cfg.outside_hours_weekend tl j
          rcases hj with hj | hj
          · have hinv := generateRoom1_inv heq j hj
            refine ⟨?_, hinv.2⟩
            show (generateInside cfg.outside_hours_weekdays
              cfg.outside_hours_weekend tl).getD j 0 = 1
            have h1 := hinv.1
            omega
          · have hinv := generateWindow_inv heqw j hj
            refine ⟨?_, hinv.2⟩
            show (generateInside cfg.outside_hours_weekdays
              cfg.outside_hours_weekend tl).getD j 0 = 1
            have h1 := hinv.1
            omega

/-- `pyOr` with a present integer on the left. -/
theorem pyOr_some_left (a : ℤ) (y : Option ℤ) :
    pyOr (some a) y = if a ≠ 0 then some a else y := by
  unfold pyOr pyTruthy
  by_cases h : a = 0 <;> simp [h]

/-- Reading an all-zero integer array yields `0` at every index. -/
theorem getD_replicate_zero_int (n j : ℕ) :
    (List.replicate n (0 : ℤ)).getD j 0 = 0 := by
  rw [List.getD_eq_getElem?_getD, List.getElem?_replicate]
  split <;> rfl

/-- Pointwise reading of the state after one OR step against an array. -/
theorem orNat_zipWith_getD (base : List ℤ) (arr : List ℕ)
    (h : arr.length = base.length) (i : ℕ) :
    (List.zipWith (fun (x : ℤ) (y : ℕ) => if x ≠ 0 then x else (y : ℤ)) base arr).getD i 0
      = if base.getD i 0 ≠ 0 then base.getD i 0 else (arr.getD i 0 : ℤ) := by
  rcases Nat.lt_or_ge i base.length with hi | hi
  · have hi' : i < arr.length := by omega
    rw [List.getD_eq_getElem?_getD, List.getElem?_zipWith,
      List.getElem?_eq_getElem hi, List.getElem?_eq_getElem hi']
    rw [List.getD_eq_getElem?_getD, List.getElem?_eq_getElem hi,
      List.getD_eq_getElem?_getD, List.getElem?_eq_getElem hi']
    rfl
  · have hz : (List.zipWith (fun (x : ℤ) (y : ℕ) => if x ≠ 0 then x else (y : ℤ)) base arr).length ≤ i := by
      rw [List.length_zipWith]; omega
    rw [List.getD_eq_getElem?_getD, List.getElem?_eq_none hz]
    rw [List.getD_eq_getElem?_getD (l := base), List.getElem?_eq_none hi]
    rw [List.getD_eq_getElem?_getD (l := arr), List.getElem?_eq_none (by omega)]
    simp

/-- One aggregation step against a present (generated) person array. -/
theorem aggStep_some (base : List ℤ) (arr : List ℕ) (h : arr.length = base.length) :
    aggStep (base.map some) (some arr)
      = .ok ((List.zipWith (fun (x : ℤ) (y : ℕ) => if x ≠ 0 then x else (y : ℤ)) base arr).map some) := by
  rw [aggStep, if_pos (by simp [h])]
  congr 1
  rw [List.zipWith_map_left, List.map_zipWith]
  simp only [pyOr_some_left, apply_ite]

/-- The final `astype(int)` on a fully integer state. -/
theorem astypeInt_map_some (l : List ℤ) : astypeInt (l.map some) = .ok l := by
  unfold astypeInt
  rw [if_pos]
  · congr 1
    have hcomp : ((fun x : Option ℤ => x.getD 0) ∘ some) = id := rfl
    rw [List.map_map, hcomp, List.map_id]
  · simp [List.all_eq_true]

/-- Full characterization of the aggregation fold: on a 0/1 integer state
and present 0/1 person arrays of matching length it succeeds, stays 0/1,
and computes the elementwise logical OR. -/
theorem aggregateStates_char :
    ∀ (states : List (Option (List ℕ))) (base : List ℤ),
      (∀ i, base.getD i 0 = 0 ∨ base.getD i 0 = 1) →
      (∀ s ∈ states, ∃ arr, s = some arr ∧ arr.length = base.length ∧
          ∀ i, arr.getD i 0 ≤ 1) →
      ∃ l, aggregateStates states (base.map some) = .ok l ∧
        l.length = base.length ∧
        (∀ i, l.getD i 0 = 0 ∨ l.getD i 0 = 1) ∧
        (∀ i, l.getD i 0 ≠ 0 ↔ (base.getD i 0 ≠ 0 ∨
            ∃ s ∈ states, ∃ arr, s = some arr ∧ arr.getD i 0 ≠ 0))
  | [], base, hb, _ => by
    refine ⟨base, ?_, rfl, hb, ?_⟩
    · exact astypeInt_map_some base
    · intro i
      simp
  | s :: ss, base, hb, hs => by
    obtain ⟨arr, rfl, hlen, harr⟩ := hs s (List.mem_cons_self s ss)
    have hnb_getD := orNat_zipWith_getD base arr hlen
    have hnb_len : (List.zipWith (fun (x : ℤ) (y : ℕ) => if x ≠ 0 then x else (y : ℤ)) base arr).length
        = base.length := by
      rw [List.length_zipWith]; omega
    have hb' : ∀ i, (List.zipWith (fun (x : ℤ) (y : ℕ) => if x ≠ 0 then x else (y : ℤ)) base arr).getD i 0 = 0
        ∨ (List.zipWith (fun (x : ℤ) (y : ℕ) => if x ≠ 0 then x else (y : ℤ)) base arr).getD i 0 = 1 := by
      intro i
      rw [hnb_getD i]
      rcases hb i with h0 | h1
      · have := harr i
        rw [if_neg (by rw [h0]; exact fun hne => hne rfl)]
        omega
      · rw [if_pos (by rw [h1]; exact one_ne_zero)]
        exact Or.inr h1
    have hs' : ∀ s' ∈ ss, ∃ arr', s' = some arr' ∧
        arr'.length = (List.zipWith (fun (x : ℤ) (y : ℕ) => if x ≠ 0 then x else (y : ℤ)) base arr).length ∧
        ∀ i, arr'.getD i 0 ≤ 1 := by
      intro s' hmem
      obtain ⟨a, ha, hl, he⟩ := hs s' (List.mem_cons_of_mem _ hmem)
      exact ⟨a, ha, by omega, he⟩
    obtain ⟨l, hal, hll, hl01, hiff⟩ := aggregateStates_char ss
      (List.zipWith (fun (x : ℤ) (y : ℕ) => if x ≠ 0 then x else (y : ℤ)) base arr) hb' hs'
    refine ⟨l, ?_, by omega, hl01, ?_⟩
    · unfold aggregateStates
      rw [aggStep_some base arr hlen]
      exact hal
    · intro i
      rw [hiff i, hnb_getD i]
      by_cases h0 : base.getD i 0 ≠ 0
      · simp only [if_pos h0]
        constructor
        · intro _; exact Or.inl h0
        · intro _; exact Or.inl h0
      · simp only [if_neg h0]
        push_neg at h0
        constructor
        · rintro (hz | ⟨s', hmem, a, ha, haz⟩)
          · refine Or.inr ⟨some arr, List.mem_cons_self _ _, arr, rfl, ?_⟩
            exact_mod_cast hz
          · exact Or.inr ⟨s', List.mem_cons_of_mem _ hmem, a, ha, haz⟩
        · rintro (hz | ⟨s', hmem, a, ha, haz⟩)
          · exact absurd h0 hz
          · rcases List.mem_cons.mp hmem with rfl | hmem'
            · cases ha
              exact Or.inl (by exact_mod_cast haz)
            · exact Or.inr ⟨s', hmem', a, ha, haz⟩

/-- `setRangeOnes` preserves length. -/
theorem setRangeOnes_length : ∀ (l : List ℕ) (idx s t : ℕ),
    (setRangeOnes l idx s t).length = l.length
  | [], _, _, _ => rfl
  | x :: xs, idx, s, t => by
    simp [setRangeOnes, setRangeOnes_length xs (idx + 1) s t]

/-- Pointwise reading of `setRangeOnes`. -/
theorem setRangeOnes_getD : ∀ (l : List ℕ) (idx s t j : ℕ),
    (setRangeOnes l idx s t).getD j 0
      = if s ≤ idx + j ∧ idx + j < t ∧ j < l.length then 1 else l.getD j 0
  | [], idx, s, t, j => by
    rw [setRangeOnes]
    have : ¬(s ≤ idx + j ∧ idx + j < t ∧ j < ([] : List ℕ).length) := by
      simp
    rw [if_neg this]
  | x :: xs, idx, s, t, 0 => by
    rw [setRangeOnes, List.getD_cons_zero, List.getD_cons_zero]
    have : (s ≤ idx ∧ idx < t) ↔ (s ≤ idx + 0 ∧ idx + 0 < t ∧ 0 < (x :: xs).length) := by
      simp [List.length_cons]
    rw [if_congr this rfl rfl]
  | x :: xs, idx, s, t, j + 1 => by
    rw [setRangeOnes, List.getD_cons_succ, List.getD_cons_succ]
    rw [setRangeOnes_getD xs (idx + 1) s t j]
    have : (s ≤ idx + 1 + j ∧ idx + 1 + j < t ∧ j < xs.length)
        ↔ (s ≤ idx + (j + 1) ∧ idx + (j + 1) < t ∧ j + 1 < (x :: xs).length) := by
      simp [List.length_cons]
      omega
    rw [if_congr this rfl rfl]

/-- In-range slice bounds resolve to `toNat`. -/
theorem sliceBound_eq {n : ℕ} {j : ℤ} (h0 : 0 ≤ j) (hn : j ≤ (n : ℤ)) :
    sliceBound n j = j.toNat := by
  unfold sliceBound
  rw [if_neg (by omega)]
  omega

/-- Bounds of a successful `np.random.randint` draw. -/
theorem npRandInt_bounds {low hiEx : ℤ} {g g' : GRng} {d : ℤ}
    (h : npRandInt low hiEx g = some (d, g')) : low ≤ d ∧ d < hiEx := by
  unfold npRandInt at h
  split at h
  · next hlt =>
    simp only [GRng.next, Option.some.injEq, Prod.mk.injEq] at h
    obtain ⟨h1, _⟩ := h
    subst h1
    constructor
    · have := Int.emod_nonneg ((⌊g.f g.k⌋.toNat : ℤ)) (by omega : hiEx - low ≠ 0)
      omega
    · have := Int.emod_lt_of_pos ((⌊g.f g.k⌋.toNat : ℤ)) (by omega : 0 < hiEx - low)
      omega
  · cases h

/-- A successful read at a nonnegative Python index is an in-range read. -/
theorem pyGet_nonneg {l : List ℕ} {i : ℤ} {v : ℕ} (hi : 0 ≤ i)
    (h : pyGet l i = some v) : l.getD i.toNat 0 = v ∧ i.toNat < l.length := by
  unfold pyGet at h
  rw [if_pos hi, List.get?_eq_getElem?] at h
  refine ⟨?_, (List.getElem?_eq_some.mp h).1⟩
  rw [List.getD_eq_getElem?_getD, h]
  rfl

/-- Invariant of the motion scan: a successful run appends spans that
start at or after the cursor, start where room1 is nonzero, are clipped
to the axis, never exceed the duration draw bound, and are ordered
without overlap; the motion array is exactly the base array plus the
union of the appended spans. -/
theorem simMotionAux_spans {prob : ℚ} {minD maxD : ℤ} {n : ℕ} {room1 : Option (List ℕ)}
    (hmin : 0 ≤ minD) :
    ∀ (fuel : ℕ) (i : ℤ) (motion : List ℕ) (spans : List (ℤ × ℤ)) (g : GRng)
      (m : List ℕ) (spansf : List (ℤ × ℤ)) (g2 : GRng),
      simMotionAux prob minD maxD n room1 fuel i motion spans g = .ok (m, spansf, g2) →
      0 ≤ i → motion.length = n →
      ∃ suf, spansf = spans ++ suf ∧ m.length = n ∧
        (∀ sp ∈ suf, i ≤ sp.1 ∧ 0 ≤ sp.1 ∧ sp.1 < (n : ℤ) ∧ sp.1 ≤ sp.2 ∧
          sp.2 ≤ (n : ℤ) ∧ sp.2 - sp.1 ≤ maxD ∧
          ∃ r1, room1 = some r1 ∧ 0 < r1.getD sp.1.toNat 0) ∧
        List.Chain' (fun x y => x.2 ≤ y.1) suf ∧
        (∀ j : ℕ, m.getD j 0 ≠ 0 ↔ motion.getD j 0 ≠ 0 ∨
          ∃ sp ∈ suf, sp.1 ≤ (j : ℤ) ∧ (j : ℤ) < sp.2) := by
  intro fuel
  induction fuel with
  | zero =>
    intro i motion spans g m spansf g2 h hi hlen
    simp only [simMotionAux] at h
    split at h
    · cases h
    · cases h
      exact ⟨[], by simp, hlen, by simp, List.chain'_nil, by simp⟩
  | succ fuel ih =>
    intro i motion spans g m spansf g2 h hi hlen
    simp only [simMotionAux] at h
    split at h
    · next hin =>
      split at h
      · cases h
      · next r1 =>
        split at h
        · cases h
        · next v hpg =>
          simp only [GRng.next] at h
          split at h
          · next hv =>
            split at h
            · next hq =>
              split at h
              · cases h
              · next dur gq hri =>
                have hbd := npRandInt_bounds hri
                have hpgv := pyGet_nonneg hi hpg
                have hlen2 : (sliceSetOnes motion i (min (i + dur) (n : ℤ))).length = n := by
                  unfold sliceSetOnes
                  rw [setRangeOnes_length]
                  exact hlen
                have hend0 : (0 : ℤ) ≤ min (i + dur) (n : ℤ) := by omega
                obtain ⟨suf, hspeq, hm, hsp, hch, hiff⟩ :=
                  ih _ _ _ _ _ _ _ h hend0 hlen2
                refine ⟨(i, min (i + dur) (n : ℤ)) :: suf, ?_, hm, ?_, ?_, ?_⟩
                · rw [hspeq]
                  simp
                · rintro sp hsp'
                  rcases List.mem_cons.mp hsp' with rfl | hmem
                  · refine ⟨le_refl _, hi, hin, by omega, by omega, by omega, r1, rfl, ?_⟩
                    rw [hpgv.1]
                    exact hv
                  · obtain ⟨h1, rest⟩ := hsp sp hmem
                    exact ⟨by omega, rest⟩
                · cases suf with
                  | nil => exact List.chain'_singleton _
                  | cons hd tl =>
                    refine List.chain'_cons.mpr ⟨?_, hch⟩
                    exact (hsp hd (List.mem_cons_self _ _)).1
                · intro j
                  rw [hiff j]
                  have hslice : (sliceSetOnes motion i (min (i + dur) (n : ℤ))).getD j 0
                      = if i.toNat ≤ j ∧ j < (min (i + dur) (n : ℤ)).toNat ∧ j < n
                        then 1 else motion.getD j 0 := by
                    unfold sliceSetOnes
                    rw [setRangeOnes_getD, sliceBound_eq hi (by omega),
                      sliceBound_eq hend0 (by omega), hlen]
                    simp only [Nat.zero_add]
                  constructor
                  · rintro (hmo | ⟨sp, hmem, hsp1, hsp2⟩)
                    · rw [hslice] at hmo
                      by_cases hc : i.toNat ≤ j ∧ j < (min (i + dur) (n : ℤ)).toNat ∧ j < n
                      · right
                        exact ⟨(i, min (i + dur) (n : ℤ)), List.mem_cons_self _ _,
                          by omega, by omega⟩
                      · rw [if_neg hc] at hmo
                        exact Or.inl hmo
                    · exact Or.inr ⟨sp, List.mem_cons_of_mem _ hmem, hsp1, hsp2⟩
                  · rintro (hmo | ⟨sp, hmem, hsp1, hsp2⟩)
                    · left
                      rw [hslice]
                      by_cases hc : i.toNat ≤ j ∧ j < (min (i + dur) (n : ℤ)).toNat ∧ j < n
                      · rw [if_pos hc]
                        exact one_ne_zero
                      · rw [if_neg hc]
                        exact hmo
                    · rcases List.mem_cons.mp hmem with rfl | hmem'
                      · left
                        rw [hslice, if_pos (by omega)]
                        exact one_ne_zero
                      · exact Or.inr ⟨sp, hmem', hsp1, hsp2⟩
            · obtain ⟨suf, rfl, hm, hsp, hch, hiff⟩ :=
                ih _ _ _ _ _ _ _ h (by omega) hlen
              refine ⟨suf, rfl, hm, ?_, hch, hiff⟩
              intro sp hs
              obtain ⟨h1, rest⟩ := hsp sp hs
              exact ⟨by omega, rest⟩
          · obtain ⟨suf, rfl, hm, hsp, hch, hiff⟩ :=
              ih _ _ _ _ _ _ _ h (by omega) hlen
            refine ⟨suf, rfl, hm, ?_, hch, hiff⟩
            intro sp hs
            obtain ⟨h1, rest⟩ := hsp sp hs
            exact ⟨by omega, rest⟩
    · cases h
      exact ⟨[], by simp, hlen, by simp, List.chain'_nil, by simp⟩

/-- Sequential generation yields one record per person. -/
theorem generateSequence_length (ps : List Person) :
    (generateSequence ps).length = ps.length := by
  induction ps with
  | nil => rfl
  | cons p ps ih => simp [generateSequence, ih]

/-- Sequential generation distributes over concatenation: each person's
call touches only that person's state. -/
theorem generateSequence_append (xs ys : List Person) :
    generateSequence (xs ++ ys) = generateSequence xs ++ generateSequence ys := by
  induction xs with
  | nil => rfl
  | cons p ps ih => simp [generateSequence, ih]

/-- The record produced for a person does not depend on which persons are
generated before or after it in the sequence. -/
theorem generateSequence_get_middle (before after : List Person) (p : Person) :
    (generateSequence (before ++ p :: after)).get? before.length
      = some ((Person.generate p).map Prod.fst) := by
  rw [generateSequence_append]
  rw [List.get?_eq_getElem?, List.getElem?_append_right
    (by rw [generateSequence_length])]
  rw [generateSequence_length, Nat.sub_self]
  simp [generateSequence]

/-- The five-array result of `generate()` does not depend on the person's
name: it is a function of the behavioural parameters, the private stream
and the bound axis alone. -/
theorem generate_map_fst_name (p : Person) (nm : String) :
    (Person.generate ⟨{ p.cfg with name := nm }, p.rng, p.timestamps,
        p.timelineCache⟩).map Prod.fst
      = (Person.generate p).map Prod.fst := by
  obtain ⟨cfg, rng, ts, tc⟩ := p
  cases cfg
  cases tc with
  | some c => rfl
  | none =>
    cases ts with
    | none => rfl
    | some tl =>
      simp only [Person.generate]
      split
      · rfl
      · split
        · rfl
        · split
          · rfl
          · rfl

/-- With a non-empty axis, reading an absent room1 array raises at the
very first loop iteration. -/
theorem simulate_person_motion_absent (a : Apartment) (p : Person) (g : GRng)
    (h1 : a.timestamps ≠ []) (h2 : p.get_room1_state = none) :
    a.simulate_person_motion p g = .error "TypeError" := by
  have hn : 0 < a.timestamps.length := List.length_pos.mpr h1
  unfold Apartment.simulate_person_motion
  rw [h2]
  rw [simMotionAux]
  rw [if_pos (by exact_mod_cast hn)]

/-- If some person in the list has an absent room1 array (non-empty
axis), the per-person motion loop cannot return normally. -/
theorem genMotionAux_absent (a : Apartment) (p : Person)
    (h1 : a.timestamps ≠ []) (h2 : p.get_room1_state = none) :
    ∀ (ps : List Person) (motion : List ℕ) (g : GRng), p ∈ ps →
      ∀ x, genMotionAux a ps motion g ≠ .ok x := by
  intro ps
  induction ps with
  | nil => intro motion g hmem; cases hmem
  | cons q qs ih =>
    intro motion g hmem x hok
    rw [genMotionAux] at hok
    split at hok
    · cases hok
    · next pm sp g' hsim =>
      rcases List.mem_cons.mp hmem with heq | hmem'
      · rw [← heq, simulate_person_motion_absent a p g h1 h2] at hsim
        cases hsim
      · exact ih (zipOrInt motion pm) g' hmem' x hok

/-- `pyOr` of a zero state cell against the `None` broadcast is `None`. -/
theorem pyOr_zero_none : pyOr (some (0 : ℤ)) none = none := rfl

/-- Aggregating a single absent person state over a non-empty axis raises
`TypeError` in the final `astype(int)`. -/
theorem aggregateStates_single_none (n : ℕ) (hn : 0 < n) :
    aggregateStates [none] (List.replicate n (some (0 : ℤ))) = .error "TypeError" := by
  have hstep : aggStep (List.replicate n (some (0 : ℤ))) none
      = .ok (List.replicate n none) := by
    rw [aggStep, List.map_replicate, pyOr_zero_none]
  simp only [aggregateStates, hstep]
  unfold astypeInt
  rw [if_neg]
  intro hall
  rw [List.all_eq_true] at hall
  have := hall none (by
    rw [List.mem_replicate]
    exact ⟨by omega, rfl⟩)
  simp at this

/-- Entries bounded by one propagate to default reads. -/
theorem getD_le_one_of_all (l : List ℕ) (h : ∀ x ∈ l, x ≤ 1) (i : ℕ) :
    l.getD i 0 ≤ 1 := by
  rw [List.getD_eq_getElem?_getD]
  cases hx : l[i]? with
  | none => exact Nat.zero_le _
  | some v => exact h v (List.getElem?_mem hx)

/-! ## Claim theorems -/

/-- C1: every index at which the window array returned by
`Person.generate()` is `1` satisfies `inside = 1` and `sleeping = 0`, and
the per-event window fill terminates at the first index violating
inside-and-awake rather than skipping it: past any violating index at or
after the fill start, the array is left unchanged. -/
theorem c1_window_invariant :
    (∀ (p : Person) (r : PersonOutput × Person), p.timelineCache = none →
        Person.generate p = some r →
        ∀ i, r.1.window.getD i 0 = 1 →
          r.1.inside.getD i 0 = 1 ∧ r.1.sleeping.getD i 0 = 0) ∧
    (∀ (inside sleeping w : List ℕ) (i0 : ℕ) (endIdx : ℤ) (j : ℕ), i0 ≤ j →
        ¬(inside.getD j 0 ≠ 0 ∧ sleeping.getD j 0 = 0) →
        ∀ j', j ≤ j' →
          (fillWindow inside sleeping w i0 endIdx).getD j' 0 = w.getD j' 0) := by
  constructor
  · intro p r hc h i hw
    exact generate_room_window_inv p r hc h i (Or.inr hw)
  · intro inside sleeping w i0 endIdx j hij hviol j' hjj'
    unfold fillWindow
    exact fillWindowAux_stops inside sleeping _ i0 w j hij hviol j' hjj'

/-- C1 witness: a concrete generated person whose window array is `1` at
index 0, and a concrete stopped fill. -/
theorem c1_window_invariant_witness :
    w1P.timelineCache = none ∧ Person.generate w1P = some w1R ∧
    w1R.1.window.getD 0 0 = 1 ∧
    (w1R.1.inside.getD 0 0 = 1 ∧ w1R.1.sleeping.getD 0 0 = 0) ∧
    (fillWindow [0] [1] [0] 0 5).getD 0 0 = ([0] : List ℕ).getD 0 0 := by
  refine ⟨rfl, rfl, by with_unfolding_all decide, ?_, ?_⟩
  · exact c1_window_invariant.1 w1P w1R rfl rfl 0 (by with_unfolding_all decide)
  · exact c1_window_invariant.2 [0] [1] [0] 0 5 0 (le_refl 0)
      (by decide) 0 (le_refl 0)

/-- C3 (amended): `sleeping = 1` iff the configured interval matches with
the strict branch test `start < end` (not `start <= end`); the array is
0/1-valued; and when `start = end` the wrap branch applies, so the array
is all ones (not all zeros).  The generator draws no randomness: it takes
no stream argument. -/
theorem c3_sleeping_characterization :
    ∀ (sh : ℚ × ℚ) (tl : List TP) (i : ℕ) (t : TP), tl.get? i = some t →
      ((generateSleeping sh tl).get? i = some 1 ↔
        (sh.1 < sh.2 ∧ sh.1 ≤ t.hour ∧ t.hour < sh.2) ∨
        (¬ sh.1 < sh.2 ∧ (t.hour ≥ sh.1 ∨ t.hour < sh.2))) ∧
      ((generateSleeping sh tl).get? i = some 0 ∨
        (generateSleeping sh tl).get? i = some 1) ∧
      (sh.1 = sh.2 → (generateSleeping sh tl).get? i = some 1) := by
  intro sh tl i t ht
  have hmap : (generateSleeping sh tl).get? i
      = some (if (if sh.1 < sh.2
            then sh.1 ≤ t.hour ∧ t.hour < sh.2
            else t.hour ≥ sh.1 ∨ t.hour < sh.2) then 1 else 0) := by
    unfold generateSleeping
    have ht2 : tl[i]? = some t := by rw [← List.get?_eq_getElem?]; exact ht
    rw [List.get?_eq_getElem?, List.getElem?_map, ht2]
    rfl
  refine ⟨?_, ?_, ?_⟩
  · rw [hmap]
    by_cases hC : (if sh.1 < sh.2 then sh.1 ≤ t.hour ∧ t.hour < sh.2
        else t.hour ≥ sh.1 ∨ t.hour < sh.2)
    · rw [if_pos hC]
      constructor
      · intro _
        by_cases h12 : sh.1 < sh.2
        · rw [if_pos h12] at hC
          exact Or.inl ⟨h12, hC⟩
        · rw [if_neg h12] at hC
          exact Or.inr ⟨h12, hC⟩
      · intro _
        rfl
    · rw [if_neg hC]
      constructor
      · intro h01
        simp at h01
      · rintro (⟨h12, hA⟩ | ⟨h12, hB⟩)
        · exact absurd (by rw [if_pos h12]; exact hA) hC
        · exact absurd (by rw [if_neg h12]; exact hB) hC
  · rw [hmap]
    by_cases hC : (if sh.1 < sh.2 then sh.1 ≤ t.hour ∧ t.hour < sh.2
        else t.hour ≥ sh.1 ∨ t.hour < sh.2)
    · rw [if_pos hC]
      exact Or.inr rfl
    · rw [if_neg hC]
      exact Or.inl rfl

  · intro heq
    rw [hmap]
    have hC : (if sh.1 < sh.2 then sh.1 ≤ t.hour ∧ t.hour < sh.2
        else t.hour ≥ sh.1 ∨ t.hour < sh.2) := by
      rw [if_neg (by rw [heq]; exact lt_irrefl _)]
      rcases le_or_lt sh.1 t.hour with h | h
      · exact Or.inl h
      · exact Or.inr (by rw [← heq]; exact h)
    rw [if_pos hC]

/-- C3 witness: with `sleep_hours = (23, 7)` at hour 12 the wrap branch
applies and the timestamp is awake. -/
theorem c3_sleeping_characterization_witness :
    (generateSleeping ((23 : ℚ), (7 : ℚ)) c3Tl).get? 0 = some 0 ∨
    (generateSleeping ((23 : ℚ), (7 : ℚ)) c3Tl).get? 0 = some 1 :=
  (c3_sleeping_characterization ((23 : ℚ), (7 : ℚ)) c3Tl 0 ⟨12, 0, 0⟩ rfl).2.1

/-- C3 counterexample: with `sleep_hours = (8, 8)` (`start = end`, so
`start <= end`) the code takes the wrap branch and marks hour 12 as
sleeping, while the claim's `start <= h < end` condition is false there
and predicts 0. -/
theorem c3_degenerate_interval_cex :
    c3Cfg.sleep_hours.1 ≤ c3Cfg.sleep_hours.2 ∧
    generateSleeping c3Cfg.sleep_hours c3Tl = [1] ∧
    ¬(c3Cfg.sleep_hours.1 ≤ (12 : ℚ) ∧ (12 : ℚ) < c3Cfg.sleep_hours.2) := by
  with_unfolding_all decide

/-- C4: `generate()` is idempotent — a second call on the state returned
by a successful call returns the very same pair (same five-array tuple
and, since the returned state is unchanged, zero further draws of the
person's stream) — and `generate()` on a freshly constructed person with
no timeline ever bound raises. -/
theorem c4_generate_idempotent_and_unbound :
    (∀ (p : Person) (r : PersonOutput × Person), Person.generate p = some r →
        Person.generate r.2 = some r) ∧
    (∀ (cfg : PersonCfg) (f : ℕ → ℕ), Person.generate (mkPerson cfg f) = none) := by
  constructor
  · intro p r h
    obtain ⟨cfg, rng, ts, tc⟩ := p
    cases tc with
    | some c =>
      simp only [Person.generate] at h
      cases h
      rfl
    | none =>
      cases ts with
      | none => simp only [Person.generate] at h; cases h
      | some tl =>
        simp only [Person.generate] at h
        split at h
        · cases h
        · next room1 g1 heq =>
          split at h
          · cases h
          · next win g2 heqb =>
            split at h
            · cases h
            · next doors g3 heqd =>
              cases h
              rfl
  · intro cfg f
    rfl

/-- C4 witness: a concrete bound person generated once; re-generating the
returned state returns the identical result, and the fresh unbound person
raises. -/
theorem c4_generate_idempotent_and_unbound_witness :
    Person.generate w4R.2 = some w4R ∧
    Person.generate (mkPerson c3Cfg zeroStream) = none :=
  ⟨c4_generate_idempotent_and_unbound.1 w4P w4R rfl,
   c4_generate_idempotent_and_unbound.2 c3Cfg zeroStream⟩

/-- C5: two persons with identical behavioural configuration (names may
differ), identical stream state, and the same bound axis produce the same
five-array output from `generate()`, at whatever positions they occupy in
a sequential generation run and regardless of which other persons are
generated before, between, or after them. -/
theorem c5_identical_config_reproducible :
    ∀ (p q : Person) (nm : String) (before mid after : List Person),
      q = ⟨{ p.cfg with name := nm }, p.rng, p.timestamps, p.timelineCache⟩ →
      ((generateSequence (before ++ p :: (mid ++ q :: after))).get? before.length
          = some ((Person.generate p).map Prod.fst)) ∧
      ((generateSequence (before ++ p :: (mid ++ q :: after))).get?
            (before.length + 1 + mid.length)
          = some ((Person.generate p).map Prod.fst)) := by
  intro p q nm before mid after hq
  constructor
  · exact generateSequence_get_middle before (mid ++ q :: after) p
  · have hassoc : before ++ p :: (mid ++ q :: after) = (before ++ p :: mid) ++ q :: after := by
      simp
    rw [hassoc]
    have hidx : before.length + 1 + mid.length = (before ++ p :: mid).length := by
      simp
      omega
    rw [hidx, generateSequence_get_middle (before ++ p :: mid) after q, hq,
      generate_map_fst_name p nm]

/-- C5 witness: two concrete persons differing only in name, generated in
one run; both slots hold the same five-array output. -/
theorem c5_identical_config_reproducible_witness :
    (generateSequence [w4P, w5Q]).get? 0
        = some ((Person.generate w4P).map Prod.fst) ∧
    (generateSequence [w4P, w5Q]).get? 1
        = some ((Person.generate w4P).map Prod.fst) :=
  c5_identical_config_reproducible w4P w5Q "other" [] [] [] rfl

/-- C9 (amended): a degenerate range is not rejected at construction; it
raises only when a draw from it is attempted.  In particular a degenerate
room per-day count range makes `generate()` raise on every non-empty
axis (the count is drawn for the first day before any event). -/
theorem c9_degenerate_count_raises :
    ∀ (cfg : PersonCfg) (f : ℕ → ℕ) (tl : List TP),
      cfg.room_per_day.1 > cfg.room_per_day.2 → tl ≠ [] →
      Person.generate ((mkPerson cfg f).set_timeline tl) = none := by
  intro cfg f tl hdeg hne
  have hr : generateRoom1 cfg.room_per_day cfg.room_duration tl
      (generateInside cfg.outside_hours_weekdays cfg.outside_hours_weekend tl)
      (generateSleeping cfg.sleep_hours tl) ⟨f, 0⟩ = none := by
    unfold generateRoom1
    rw [if_neg (by simpa [List.length_eq_zero] using hne)]
    obtain ⟨d, ds, hds⟩ := List.exists_cons_of_ne_nil
      (@getDayIndices_ne_nil (tl.map TP.date)
        (fun hmap => hne (by simpa using hmap)))
    rw [hds]
    exact room1Days_degenerate hdeg
  simp only [Person.generate, mkPerson, Person.set_timeline]
  rw [hr]

/-- C9 witness: a concrete degenerate room count range `(3, 1)` makes
generation raise on a one-instant axis. -/
theorem c9_degenerate_count_raises_witness :
    w9Cfg.room_per_day.1 > w9Cfg.room_per_day.2 ∧
    Person.generate ((mkPerson w9Cfg zeroStream).set_timeline c3Tl) = none :=
  ⟨by decide,
   c9_degenerate_count_raises w9Cfg zeroStream c3Tl (by decide) (by decide)⟩

/-- C9 counterexample: a configuration with a degenerate door-open
duration range `(5, 3)` and zero per-day event counts is never rejected —
neither at construction nor during `generate()`, which completes normally
on a non-empty axis because the degenerate range is never drawn from. -/
theorem c9_silent_degenerate_cex :
    c9CexCfg.door_open_duration.1 > c9CexCfg.door_open_duration.2 ∧
    (Person.generate c9CexP).isSome = true := by
  constructor
  · decide
  · with_unfolding_all decide

/-- C10: with a non-empty axis, simulating motion for a person whose
room1 accessor is absent raises `TypeError` at the first loop iteration
(`room1_state[i]` dereferences `None`), and `Apartment.generate()`
containing such a person can never return normally — the person is not
treated as contributing no motion. -/
theorem c10_absent_room1_motion_fails :
    ∀ (a : Apartment) (p : Person) (g : GRng),
      a.timestamps ≠ [] → p.get_room1_state = none →
      a.simulate_person_motion p g = .error "TypeError" ∧
      (p ∈ a.persons → ∀ x, Apartment.generate a g ≠ .ok x) := by
  intro a p g h1 h2
  refine ⟨simulate_person_motion_absent a p g h1 h2, ?_⟩
  intro hmem x hok
  unfold Apartment.generate at hok
  split at hok
  · cases hok
  · next m g2 hgm =>
    exact genMotionAux_absent a p h1 h2 a.persons _ g hmem (m, g2) hgm

/-- C10 witness: the concrete apartment with one bound, never generated
person over a one-instant axis. -/
theorem c10_absent_room1_motion_fails_witness :
    Apartment.simulate_person_motion c8Apt c8P ⟨zeroQStream, 0⟩ = .error "TypeError" ∧
    (∀ x, Apartment.generate c8Apt ⟨zeroQStream, 0⟩ ≠ .ok x) := by
  have h := c10_absent_room1_motion_fails c8Apt c8P ⟨zeroQStream, 0⟩
    (by decide) rfl
  exact ⟨h.1, fun x => h.2 (List.mem_cons_self _ _) x⟩

/-- Folding a present array into an all-`None` state restores presence
cellwise: `None or y` is `y`. -/
theorem zipWith_pyOr_replicate_none (w : List ℕ) :
    ∀ n, w.length = n →
      List.zipWith (fun (x : Option ℤ) (y : ℕ) => pyOr x (some (y : ℤ)))
        (List.replicate n none) w = w.map (fun (y : ℕ) => some ((y : ℤ))) := by
  induction w with
  | nil =>
    intro n h
    rw [← h]
    rfl
  | cons y ys ih =>
    intro n h
    rw [← h, List.length_cons, List.replicate_succ]
    rw [List.zipWith_cons_cons, List.map_cons]
    rw [ih ys.length rfl]
    rfl

/-- C8 (amended): the Person accessors and `Apartment.get_motion` return
an absent result (`None`) before generation and never raise; but
`Apartment.get_window`/`get_door` with a sole bound person that has not
generated do not return an absent or empty result — on a non-empty axis
they raise `TypeError` (the `None` contribution survives into
`astype(int)`).  The raise is not universal over apartments with some
ungenerated person: a later generated person's array overwrites the
`None` entries (`None or y` is `y`), so an ungenerated person followed
by a generated one returns that person's contribution normally. -/
theorem c8_pre_generation_accessors :
    (∀ p : Person, p.timelineCache = none →
      p.get_room1_state = none ∧ p.get_window_state = none ∧
      p.get_door_state = none) ∧
    (∀ a : Apartment, a.motionState = none → a.get_motion = none) ∧
    (∀ (a : Apartment) (p : Person), a.persons = [p] → p.timelineCache = none →
      a.timestamps ≠ [] →
      a.get_window = .error "TypeError" ∧ a.get_door = .error "TypeError") ∧
    (∀ (a : Apartment) (p q : Person) (w d : List ℕ),
      a.persons = [p, q] → p.timelineCache = none →
      q.get_window_state = some w → q.get_door_state = some d →
      w.length = a.timestamps.length → d.length = a.timestamps.length →
      a.get_window = .ok (w.map (fun (y : ℕ) => (y : ℤ))) ∧
      a.get_door = .ok (d.map (fun (y : ℕ) => (y : ℤ)))) := by
  refine ⟨?_, ?_, ?_, ?_⟩
  · intro p h
    simp [Person.get_room1_state, Person.get_window_state, Person.get_door_state, h]
  · intro a h
    exact h
  · intro a p hps hc hne
    have hn : 0 < a.timestamps.length := List.length_pos.mpr hne
    constructor
    · unfold Apartment.get_window Apartment.aggregate_person_state
      rw [hps]
      have hw : p.get_window_state = none := by
        simp [Person.get_window_state, hc]
      rw [List.map_cons, List.map_nil, hw]
      exact aggregateStates_single_none _ hn
    · unfold Apartment.get_door Apartment.aggregate_person_state
      rw [hps]
      have hd : p.get_door_state = none := by
        simp [Person.get_door_state, hc]
      rw [List.map_cons, List.map_nil, hd]
      exact aggregateStates_single_none _ hn
  · intro a p q w d hps hc hqw hqd hwl hdl
    have hstep1 : aggStep (List.replicate a.timestamps.length (some (0 : ℤ))) none
        = .ok (List.replicate a.timestamps.length none) := by
      rw [aggStep, List.map_replicate, pyOr_zero_none]
    constructor
    · unfold Apartment.get_window Apartment.aggregate_person_state
      rw [hps, List.map_cons, List.map_cons, List.map_nil]
      have hpw : p.get_window_state = none := by
        simp [Person.get_window_state, hc]
      rw [hpw, hqw]
      have hstep2 : aggStep (List.replicate a.timestamps.length (none : Option ℤ))
          (some w) = .ok (w.map (fun (y : ℕ) => some ((y : ℤ)))) := by
        rw [aggStep]
        rw [if_pos (by rw [List.length_replicate]; exact hwl)]
        rw [zipWith_pyOr_replicate_none w a.timestamps.length hwl]
      simp only [aggregateStates, hstep1, hstep2]
      have hmm : w.map (fun y : ℕ => some ((y : ℤ))) =
          (w.map (fun y : ℕ => ((y : ℤ)))).map some := by
        rw [List.map_map]
        rfl
      rw [hmm, astypeInt_map_some]
    · unfold Apartment.get_door Apartment.aggregate_person_state
      rw [hps, List.map_cons, List.map_cons, List.map_nil]
      have hpd : p.get_door_state = none := by
        simp [Person.get_door_state, hc]
      rw [hpd, hqd]
      have hstep2 : aggStep (List.replicate a.timestamps.length (none : Option ℤ))
          (some d) = .ok (d.map (fun (y : ℕ) => some ((y : ℤ)))) := by
        rw [aggStep]
        rw [if_pos (by rw [List.length_replicate]; exact hdl)]
        rw [zipWith_pyOr_replicate_none d a.timestamps.length hdl]
      simp only [aggregateStates, hstep1, hstep2]
      have hmm : d.map (fun y : ℕ => some ((y : ℤ))) =
          (d.map (fun y : ℕ => ((y : ℤ)))).map some := by
        rw [List.map_map]
        rfl
      rw [hmm, astypeInt_map_some]

/-- C8 witness: concrete instances of all four parts. -/
theorem c8_pre_generation_accessors_witness :
    (c8P.get_room1_state = none ∧ c8P.get_window_state = none ∧
      c8P.get_door_state = none) ∧
    Apartment.get_motion c8Apt = none ∧
    (Apartment.get_window c8Apt = .error "TypeError" ∧
      Apartment.get_door c8Apt = .error "TypeError") ∧
    (Apartment.get_window c8Apt2 = .ok [1] ∧
      Apartment.get_door c8Apt2 = .ok [0]) :=
  ⟨c8_pre_generation_accessors.1 c8P rfl,
   c8_pre_generation_accessors.2.1 c8Apt rfl,
   c8_pre_generation_accessors.2.2.1 c8Apt c8P rfl rfl (by decide),
   c8_pre_generation_accessors.2.2.2 c8Apt2 c8P c8Q [1] [0]
     rfl rfl rfl rfl rfl rfl⟩

/-- C8 counterexample: the read accessor `Apartment.get_window` (and
`get_door`) invoked while the sole bound person has not generated raises
`TypeError` instead of returning an absent/empty result. -/
theorem c8_aggregate_raises_cex :
    c8P.timelineCache = none ∧
    Apartment.get_window c8Apt = .error "TypeError" ∧
    Apartment.get_door c8Apt = .error "TypeError" :=
  ⟨rfl, rfl, rfl⟩

/-- C7: in a per-person motion pass (nonnegative configured minimum
duration), every recorded burst is a span clipped to the axis end of at
most `max_duration` indices, starts at an index where the person's room1
array is nonzero, the bursts are ordered without overlap (the cursor
passes each span before the next trial), and the motion array is exactly
the union of the bursts. -/
theorem c7_motion_burst_properties :
    ∀ (a : Apartment) (p : Person) (g : GRng) (m : List ℕ)
      (spans : List (ℤ × ℤ)) (g2 : GRng),
      0 ≤ a.min_duration →
      a.simulate_person_motion p g = .ok (m, spans, g2) →
      m.length = a.timestamps.length ∧
      (∀ sp ∈ spans, 0 ≤ sp.1 ∧ sp.1 < (a.timestamps.length : ℤ) ∧
        sp.1 ≤ sp.2 ∧ sp.2 ≤ (a.timestamps.length : ℤ) ∧
        sp.2 - sp.1 ≤ a.max_duration ∧
        ∃ r1, p.get_room1_state = some r1 ∧ 0 < r1.getD sp.1.toNat 0) ∧
      List.Chain' (fun x y => x.2 ≤ y.1) spans ∧
      (∀ j : ℕ, m.getD j 0 ≠ 0 ↔ ∃ sp ∈ spans, sp.1 ≤ (j : ℤ) ∧ (j : ℤ) < sp.2) := by
  intro a p g m spans g2 hmin h
  unfold Apartment.simulate_person_motion at h
  obtain ⟨suf, hspeq, hm, hsp, hch, hiff⟩ :=
    simMotionAux_spans hmin _ _ _ _ _ _ _ _ h le_rfl
      (List.length_replicate _ _)
  rw [List.nil_append] at hspeq
  subst hspeq
  refine ⟨hm, ?_, hch, ?_⟩
  · intro sp hmem
    obtain ⟨_, h2, h3, h4, h5, h6, h7⟩ := hsp sp hmem
    exact ⟨h2, h3, h4, h5, h6, h7⟩
  · intro j
    rw [hiff j, getD_replicate_zero]
    simp

/-- C7 witness: a one-burst run on a two-instant axis. -/
theorem c7_motion_burst_properties_witness :
    ([1, 0] : List ℕ).length = w7Apt.timestamps.length ∧
    ((0 : ℤ) ≤ 0 ∧ (0 : ℤ) < (w7Apt.timestamps.length : ℤ) ∧
      (0 : ℤ) ≤ (1 : ℤ) ∧ (1 : ℤ) ≤ (w7Apt.timestamps.length : ℤ) ∧
      (1 : ℤ) - 0 ≤ w7Apt.max_duration ∧
      ∃ r1, w7P.get_room1_state = some r1 ∧ 0 < r1.getD (0 : ℤ).toNat 0) ∧
    List.Chain' (fun x y => x.2 ≤ y.1) [((0 : ℤ), (1 : ℤ))] ∧
    (([1, 0] : List ℕ).getD 0 0 ≠ 0 ↔
      ∃ sp ∈ [((0 : ℤ), (1 : ℤ))], sp.1 ≤ ((0 : ℕ) : ℤ) ∧ ((0 : ℕ) : ℤ) < sp.2) := by
  have h := c7_motion_burst_properties w7Apt w7P w7G [1, 0] [(0, 1)]
    ⟨zeroQStream, 2⟩ (by decide) (by with_unfolding_all rfl)
  exact ⟨h.1, h.2.1 (0, 1) (List.mem_cons_self _ _), h.2.2.1, h.2.2.2 0⟩

/-- Aggregation over the all-zero initial state, stated for any list of
person states that are all present, 0/1-valued and of axis length. -/
theorem get_state_char (n : ℕ) (states : List (Option (List ℕ)))
    (h : ∀ s ∈ states, ∃ arr, s = some arr ∧ arr.length = n ∧
        ∀ i, arr.getD i 0 ≤ 1) :
    ∃ l, aggregateStates states (List.replicate n (some 0)) = .ok l ∧
      l.length = n ∧
      (∀ i, l.getD i 0 = 0 ∨ l.getD i 0 = 1) ∧
      (∀ i, l.getD i 0 ≠ 0 ↔
        ∃ s ∈ states, ∃ arr, s = some arr ∧ arr.getD i 0 ≠ 0) := by
  have hbase : (List.replicate n (some (0 : ℤ))) = (List.replicate n (0 : ℤ)).map some := by
    rw [List.map_replicate]
  obtain ⟨l, h1, h2, h3, h4⟩ := aggregateStates_char states (List.replicate n 0)
    (fun i => Or.inl (getD_replicate_zero_int n i))
    (by
      intro s hs
      obtain ⟨arr, ha, hl, hb2⟩ := h s hs
      exact ⟨arr, ha, by rw [List.length_replicate]; exact hl, hb2⟩)
  refine ⟨l, by rw [hbase]; exact h1, by rw [h2, List.length_replicate], h3, ?_⟩
  intro i
  rw [h4 i, getD_replicate_zero_int]
  simp

/-- Two 0/1 arrays of the same length with the same support are equal. -/
theorem agg_unique {n : ℕ} {l1 l2 : List ℤ} (hl1 : l1.length = n)
    (hl2 : l2.length = n)
    (h01a : ∀ i, l1.getD i 0 = 0 ∨ l1.getD i 0 = 1)
    (h01b : ∀ i, l2.getD i 0 = 0 ∨ l2.getD i 0 = 1)
    (hiff : ∀ i, l1.getD i 0 ≠ 0 ↔ l2.getD i 0 ≠ 0) : l1 = l2 := by
  apply List.ext_getElem?
  intro i
  rcases Nat.lt_or_ge i n with hi | hi
  · have hi1 : i < l1.length := by omega
    have hi2 : i < l2.length := by omega
    rw [List.getElem?_eq_getElem hi1, List.getElem?_eq_getElem hi2]
    have d1 : l1.getD i 0 = l1[i] := by
      rw [List.getD_eq_getElem?_getD, List.getElem?_eq_getElem hi1]
      rfl
    have d2 : l2.getD i 0 = l2[i] := by
      rw [List.getD_eq_getElem?_getD, List.getElem?_eq_getElem hi2]
      rfl
    have e1 := h01a i
    have e2 := h01b i
    have e3 := hiff i
    rw [d1] at e1 e3
    rw [d2] at e2 e3
    congr 1
    omega
  · rw [List.getElem?_eq_none (by omega), List.getElem?_eq_none (by omega)]

/-- C6: for an apartment whose bound persons have all generated,
`get_window()` (resp. `get_door()`) succeeds with a 0/1 array of axis
length whose support is exactly the union of the persons' window (resp.
door) supports — the elementwise logical OR — for any number of persons;
an empty apartment yields the all-zero array; and the result is invariant
under permuting the persons. -/
theorem c6_apartment_or_aggregation :
    ∀ (a : Apartment) (n : ℕ), n = a.timestamps.length →
    (∀ p ∈ a.persons, ∃ w d, p.get_window_state = some w ∧
        p.get_door_state = some d ∧ w.length = n ∧ d.length = n ∧
        (∀ i, w.getD i 0 ≤ 1) ∧ (∀ i, d.getD i 0 ≤ 1)) →
    (∃ lw, a.get_window = .ok lw ∧ lw.length = n ∧
        (∀ i, lw.getD i 0 = 0 ∨ lw.getD i 0 = 1) ∧
        (∀ i, lw.getD i 0 ≠ 0 ↔
          ∃ p ∈ a.persons, ∃ w, p.get_window_state = some w ∧ w.getD i 0 ≠ 0)) ∧
    (∃ ld, a.get_door = .ok ld ∧ ld.length = n ∧
        (∀ i, ld.getD i 0 = 0 ∨ ld.getD i 0 = 1) ∧
        (∀ i, ld.getD i 0 ≠ 0 ↔
          ∃ p ∈ a.persons, ∃ d, p.get_door_state = some d ∧ d.getD i 0 ≠ 0)) ∧
    (a.persons = [] → a.get_window = .ok (List.replicate n 0) ∧
        a.get_door = .ok (List.replicate n 0)) ∧
    (∀ a2 : Apartment, a2.timestamps.length = a.timestamps.length →
        a2.persons.Perm a.persons →
        a2.get_window = a.get_window ∧ a2.get_door = a.get_door) := by
  intro a n hn hps
  subst hn
  have hwstates : ∀ s ∈ a.persons.map Person.get_window_state,
      ∃ arr, s = some arr ∧ arr.length = a.timestamps.length ∧
        ∀ i, arr.getD i 0 ≤ 1 := by
    intro s hs
    obtain ⟨p, hp, rfl⟩ := List.mem_map.mp hs
    obtain ⟨w, d, hw1, _, hw2, _, hw3, _⟩ := hps p hp
    exact ⟨w, hw1, hw2, hw3⟩
  have hdstates : ∀ s ∈ a.persons.map Person.get_door_state,
      ∃ arr, s = some arr ∧ arr.length = a.timestamps.length ∧
        ∀ i, arr.getD i 0 ≤ 1 := by
    intro s hs
    obtain ⟨p, hp, rfl⟩ := List.mem_map.mp hs
    obtain ⟨w, d, _, hd1, _, hd2, _, hd3⟩ := hps p hp
    exact ⟨d, hd1, hd2, hd3⟩
  obtain ⟨lw, hw1, hw2, hw3, hw4⟩ :=
    get_state_char a.timestamps.length (a.persons.map Person.get_window_state) hwstates
  obtain ⟨ld, hd1, hd2, hd3, hd4⟩ :=
    get_state_char a.timestamps.length (a.persons.map Person.get_door_state) hdstates
  refine ⟨⟨lw, hw1, hw2, hw3, ?_⟩, ⟨ld, hd1, hd2, hd3, ?_⟩, ?_, ?_⟩
  · intro i
    rw [hw4 i]
    constructor
    · rintro ⟨s, hs, arr, rfl, ha⟩
      obtain ⟨p, hp, hps'⟩ := List.mem_map.mp hs
      exact ⟨p, hp, arr, hps', ha⟩
    · rintro ⟨p, hp, w, hpw, hw⟩
      exact ⟨some w, by rw [← hpw]; exact List.mem_map_of_mem _ hp, w, rfl, hw⟩
  · intro i
    rw [hd4 i]
    constructor
    · rintro ⟨s, hs, arr, rfl, ha⟩
      obtain ⟨p, hp, hps'⟩ := List.mem_map.mp hs
      exact ⟨p, hp, arr, hps', ha⟩
    · rintro ⟨p, hp, d, hpd, hd⟩
      exact ⟨some d, by rw [← hpd]; exact List.mem_map_of_mem _ hp, d, rfl, hd⟩
  · intro hemp
    constructor
    · show Apartment.aggregate_person_state a _ = _
      unfold Apartment.aggregate_person_state
      rw [hemp, List.map_nil]
      rw [show (List.replicate a.timestamps.length (some (0 : ℤ)))
          = (List.replicate a.timestamps.length (0 : ℤ)).map some from by
        rw [List.map_replicate]]
      rw [aggregateStates]
      exact astypeInt_map_some _
    · show Apartment.aggregate_person_state a _ = _
      unfold Apartment.aggregate_person_state
      rw [hemp, List.map_nil]
      rw [show (List.replicate a.timestamps.length (some (0 : ℤ)))
          = (List.replicate a.timestamps.length (0 : ℤ)).map some from by
        rw [List.map_replicate]]
      rw [aggregateStates]
      exact astypeInt_map_some _
  · intro a2 hlen2 hperm
    have hwstates2 : ∀ s ∈ a2.persons.map Person.get_window_state,
        ∃ arr, s = some arr ∧ arr.length = a.timestamps.length ∧
          ∀ i, arr.getD i 0 ≤ 1 :=
      fun s hs => by
        obtain ⟨p, hp, rfl⟩ := List.mem_map.mp hs
        exact hwstates _ (List.mem_map_of_mem _ (hperm.subset hp))
    have hdstates2 : ∀ s ∈ a2.persons.map Person.get_door_state,
        ∃ arr, s = some arr ∧ arr.length = a.timestamps.length ∧
          ∀ i, arr.getD i 0 ≤ 1 :=
      fun s hs => by
        obtain ⟨p, hp, rfl⟩ := List.mem_map.mp hs
        exact hdstates _ (List.mem_map_of_mem _ (hperm.subset hp))
    obtain ⟨lw2, hw1b, hw2b, hw3b, hw4b⟩ :=
      get_state_char a.timestamps.length
        (a2.persons.map Person.get_window_state) hwstates2
    obtain ⟨ld2, hd1b, hd2b, hd3b, hd4b⟩ :=
      get_state_char a.timestamps.length
        (a2.persons.map Person.get_door_state) hdstates2
    have hlw : lw2 = lw := by
      refine agg_unique hw2b hw2 hw3b hw3 ?_
      intro i
      rw [hw4b i, hw4 i]
      constructor
      · rintro ⟨s, hs, rest⟩
        exact ⟨s, ((hperm.map Person.get_window_state).mem_iff).mp hs, rest⟩
      · rintro ⟨s, hs, rest⟩
        exact ⟨s, ((hperm.map Person.get_window_state).mem_iff).mpr hs, rest⟩
    have hld : ld2 = ld := by
      refine agg_unique hd2b hd2 hd3b hd3 ?_
      intro i
      rw [hd4b i, hd4 i]
      constructor
      · rintro ⟨s, hs, rest⟩
        exact ⟨s, ((hperm.map Person.get_door_state).mem_iff).mp hs, rest⟩
      · rintro ⟨s, hs, rest⟩
        exact ⟨s, ((hperm.map Person.get_door_state).mem_iff).mpr hs, rest⟩
    constructor
    · show Apartment.aggregate_person_state a2 _ = _
      unfold Apartment.aggregate_person_state
      rw [hlen2, hw1b, hlw]
      show _ = Apartment.aggregate_person_state a _
      unfold Apartment.aggregate_person_state
      rw [hw1]
    · show Apartment.aggregate_person_state a2 _ = _
      unfold Apartment.aggregate_person_state
      rw [hlen2, hd1b, hld]
      show _ = Apartment.aggregate_person_state a _
      unfold Apartment.aggregate_person_state
      rw [hd1]

theorem c6_apartment_or_aggregation_witness :
    (∃ lw, w6Apt.get_window = .ok lw ∧ lw.length = 2 ∧
      (lw.getD 0 0 = 0 ∨ lw.getD 0 0 = 1) ∧
      (lw.getD 0 0 ≠ 0 ↔ ∃ p ∈ w6Apt.persons, ∃ w,
        p.get_window_state = some w ∧ w.getD 0 0 ≠ 0)) ∧
    (∃ ld, w6Apt.get_door = .ok ld ∧ ld.length = 2 ∧
      (ld.getD 1 0 = 0 ∨ ld.getD 1 0 = 1) ∧
      (ld.getD 1 0 ≠ 0 ↔ ∃ p ∈ w6Apt.persons, ∃ d,
        p.get_door_state = some d ∧ d.getD 1 0 ≠ 0)) ∧
    w6AptPerm.get_window = w6Apt.get_window ∧
    w6AptPerm.get_door = w6Apt.get_door ∧
    w6AptEmpty.get_window = .ok (List.replicate 2 0) ∧
    w6AptEmpty.get_door = .ok (List.replicate 2 0) := by
  have hper : ∀ p ∈ w6Apt.persons, ∃ w d, p.get_window_state = some w ∧
      p.get_door_state = some d ∧ w.length = 2 ∧ d.length = 2 ∧
      (∀ i, w.getD i 0 ≤ 1) ∧ (∀ i, d.getD i 0 ≤ 1) := by
    intro p hp
    rcases List.mem_cons.mp hp with rfl | hp
    · exact ⟨[1, 0], [0, 0], rfl, rfl, rfl, rfl,
        getD_le_one_of_all _ (by decide), getD_le_one_of_all _ (by decide)⟩
    rcases List.mem_cons.mp hp with rfl | hp
    · exact ⟨[0, 0], [0, 1], rfl, rfl, rfl, rfl,
        getD_le_one_of_all _ (by decide), getD_le_one_of_all _ (by decide)⟩
    exact absurd hp (List.not_mem_nil p)
  have h := c6_apartment_or_aggregation w6Apt 2 rfl hper
  have hemp := c6_apartment_or_aggregation w6AptEmpty 2 rfl
    (fun p hp => absurd hp (List.not_mem_nil p))
  obtain ⟨⟨lw, e1, e2, e3, e4⟩, ⟨ld, f1, f2, f3, f4⟩, -, hpm⟩ := h
  obtain ⟨-, -, g3, -⟩ := hemp
  have hp2 := hpm w6AptPerm rfl (List.Perm.swap w6P1 w6P2 [])
  exact ⟨⟨lw, e1, e2, e3 0, e4 0⟩, ⟨ld, f1, f2, f3 1, f4 1⟩,
    hp2.1, hp2.2, (g3 rfl).1, (g3 rfl).2⟩

/-! ## §8 scenario: symbolic evaluation lemmas -/

/-- The date column of the §8 axis is constant. -/
theorem scenario_map_date (wd : ℕ) (dt : ℤ) :
    (scenarioDay wd dt).map TP.date = List.replicate 1440 dt := by
  rw [scenarioDay, List.map_map]
  have h : (TP.date ∘ fun i : ℕ => (⟨(i : ℚ) / 60, wd, dt⟩ : TP)) = fun _ => dt := rfl
  rw [h, List.map_const', List.length_range]

/-- The §8 axis has 1440 points. -/
theorem scenario_length (wd : ℕ) (dt : ℤ) : (scenarioDay wd dt).length = 1440 := by
  rw [scenarioDay, List.length_map, List.length_range]

/-- Inserting the repeated value into a constant list prepends it. -/
theorem insertAsc_replicate (n : ℕ) (d : ℤ) :
    insertAsc d (List.replicate n d) = List.replicate (n + 1) d := by
  cases n with
  | zero => rfl
  | succ m =>
    rw [List.replicate_succ]
    simp only [insertAsc]
    rw [if_pos le_rfl]
    rfl

/-- Sorting a constant list is the identity. -/
theorem sortAsc_replicate (n : ℕ) (d : ℤ) :
    sortAsc (List.replicate n d) = List.replicate n d := by
  induction n with
  | zero => rfl
  | succ m ih =>
    rw [List.replicate_succ]
    simp only [sortAsc]
    rw [ih, insertAsc_replicate, List.replicate_succ]

/-- Deduplicating a nonempty constant list yields the singleton. -/
theorem dedupAdj_replicate (n : ℕ) (d : ℤ) :
    dedupAdj (List.replicate (n + 1) d) = [d] := by
  induction n with
  | zero => rfl
  | succ m ih =>
    show dedupAdj (d :: d :: List.replicate m d) = [d]
    simp only [dedupAdj]
    rw [if_pos trivial]
    exact ih

/-- `np.unique` of a nonempty constant list is the singleton. -/
theorem npUnique_replicate (n : ℕ) (d : ℤ) :
    npUnique (List.replicate (n + 1) d) = [d] := by
  rw [npUnique, sortAsc_replicate, dedupAdj_replicate]

/-- Reading any in-bounds entry of a constant list. -/
theorem getD_replicate_self (n i : ℕ) (d : ℤ) (h : i < n) :
    (List.replicate n d).getD i 0 = d := by
  rw [List.getD_eq_getElem?_getD, List.getElem?_replicate, if_pos h]
  rfl

/-- `np.where` over a constant date column selects every index. -/
theorem npWhereEq_replicate (n : ℕ) (d : ℤ) :
    npWhereEq (List.replicate n d) d = List.range n := by
  rw [npWhereEq, List.length_replicate]
  apply List.filter_eq_self.mpr
  intro i hi
  have hlt : i < n := List.mem_range.mp hi
  simp only [decide_eq_true_eq, List.getD_eq_getElem?_getD]
  rw [List.getElem?_replicate, if_pos hlt]
  rfl

/-- The day-index groups of a single-day axis: one group holding every index. -/
theorem getDayIndices_replicate (n : ℕ) (d : ℤ) :
    getDayIndices (List.replicate (n + 1) d) = [List.range (n + 1)] := by
  rw [getDayIndices, npUnique_replicate]
  have h1 : npWhereEq (List.replicate (n + 1) d) d = List.range (n + 1) :=
    npWhereEq_replicate _ _
  simp [h1, List.range_succ]

/-- The §8 axis forms a single day-index group `[0, …, 1439]`. -/
theorem scenario_dayIdx (wd : ℕ) (dt : ℤ) :
    getDayIndices ((scenarioDay wd dt).map TP.date) = [List.range 1440] := by
  rw [scenario_map_date]
  exact getDayIndices_replicate 1439 dt

/-- The inside array over the §8 axis, read pointwise. -/
theorem inside_scenario_getD (wk we : List (ℚ × ℚ)) (wd : ℕ) (dt : ℤ) (i : ℕ)
    (h : i < 1440) :
    (generateInside wk we (scenarioDay wd dt)).getD i 0 =
      if isOutside wk we ((i : ℚ) / 60) wd then 0 else 1 := by
  rw [generateInside, List.getD_eq_getElem?_getD, List.getElem?_map, scenarioDay,
    List.getElem?_map, List.getElem?_range h]
  rfl

/-- The sleeping array over the §8 axis, read pointwise. -/
theorem sleeping_scenario_getD (sh : ℚ × ℚ) (wd : ℕ) (dt : ℤ) (i : ℕ)
    (h : i < 1440) :
    (generateSleeping sh (scenarioDay wd dt)).getD i 0 =
      if (if sh.1 < sh.2
          then sh.1 ≤ (i : ℚ) / 60 ∧ (i : ℚ) / 60 < sh.2
          else (i : ℚ) / 60 ≥ sh.1 ∨ (i : ℚ) / 60 < sh.2)
      then 1 else 0 := by
  rw [generateSleeping, List.getD_eq_getElem?_getD, List.getElem?_map, scenarioDay,
    List.getElem?_map, List.getElem?_range h]
  rfl

/-- The inside array has the axis length. -/
theorem generateInside_length (wk we : List (ℚ × ℚ)) (tl : Timeline) :
    (generateInside wk we tl).length = tl.length := by
  rw [generateInside, List.length_map]

/-- Transition marking, read pointwise away from index 0. -/
theorem doorTransitions_getD (ins : List ℕ) (i : ℕ) (h0 : i ≠ 0)
    (h : i < ins.length) :
    (doorTransitions ins).getD i 0 =
      if ins.getD i 0 ≠ ins.getD (i - 1) 0 then 1 else 0 := by
  rw [doorTransitions, List.getD_eq_getElem?_getD, List.getElem?_map,
    List.getElem?_range h]
  show (if i = 0 then 0
    else if ins.getD i 0 ≠ ins.getD (i - 1) 0 then 1 else 0) = _
  rw [if_neg h0]

/-- A count draw over the pinned range `[0, 0]` yields 0 for every stream. -/
theorem npIntegers_zero_zero (g : RNG) :
    npIntegers (0 : ℤ) ((0 : ℤ) + 1) g = some (0, ⟨g.f, g.k + 1⟩) := by
  rw [npIntegers, if_pos (by norm_num)]
  simp [RNG.next]

/-- A draw over the pinned range `[1, 1]` yields 1 for every stream. -/
theorem npIntegers_one_one (g : RNG) :
    npIntegers (1 : ℤ) ((1 : ℤ) + 1) g = some (1, ⟨g.f, g.k + 1⟩) := by
  rw [npIntegers, if_pos (by norm_num)]
  simp [RNG.next]

/-- With `room_per_day = [0, 0]` each day draws a zero period count and
leaves the array untouched; only the counter advances. -/
theorem room1Days_zero (durRange : ℤ × ℤ) (inside sleeping : List ℕ) (n : ℕ) :
    ∀ (ds : List (List ℕ)) (arr : List ℕ) (g : RNG),
      room1Days (0, 0) durRange inside sleeping n ds arr g =
        some (arr, ⟨g.f, g.k + ds.length⟩) := by
  intro ds
  induction ds with
  | nil => intro arr g; rfl
  | cons d ds ih =>
    intro arr g
    simp only [room1Days]
    rw [npIntegers_zero_zero]
    show room1Days (0, 0) durRange inside sleeping n ds arr ⟨g.f, g.k + 1⟩ = _
    rw [ih arr ⟨g.f, g.k + 1⟩]
    have h : g.k + 1 + ds.length = g.k + (d :: ds).length := by
      rw [List.length_cons]; omega
    rw [h]

/-- With `window_open_per_day = [0, 0]` each day leaves the array untouched. -/
theorem windowDays_zero (durRange : ℤ × ℤ) (inside sleeping : List ℕ) :
    ∀ (ds : List (List ℕ)) (arr : List ℕ) (g : RNG),
      windowDays (0, 0) durRange inside sleeping ds arr g =
        some (arr, ⟨g.f, g.k + ds.length⟩) := by
  intro ds
  induction ds with
  | nil => intro arr g; rfl
  | cons d ds ih =>
    intro arr g
    simp only [windowDays]
    rw [npIntegers_zero_zero]
    show windowDays (0, 0) durRange inside sleeping ds arr ⟨g.f, g.k + 1⟩ = _
    rw [ih arr ⟨g.f, g.k + 1⟩]
    have h : g.k + 1 + ds.length = g.k + (d :: ds).length := by
      rw [List.length_cons]; omega
    rw [h]

/-- With `door_open_per_day = [0, 0]` each day leaves the array untouched. -/
theorem doorDays_zero (durRange : ℤ × ℤ) (inside sleeping : List ℕ) (n : ℕ) :
    ∀ (ds : List (List ℕ)) (arr : List ℕ) (g : RNG),
      doorDays (0, 0) durRange inside sleeping n ds arr g =
        some (arr, ⟨g.f, g.k + ds.length⟩) := by
  intro ds
  induction ds with
  | nil => intro arr g; rfl
  | cons d ds ih =>
    intro arr g
    simp only [doorDays]
    rw [npIntegers_zero_zero]
    show doorDays (0, 0) durRange inside sleeping n ds arr ⟨g.f, g.k + 1⟩ = _
    rw [ih arr ⟨g.f, g.k + 1⟩]
    have h : g.k + 1 + ds.length = g.k + (d :: ds).length := by
      rw [List.length_cons]; omega
    rw [h]

/-- `Person.generate` on an uncached person with a bound timeline, given
the results of the three random stages. -/
theorem generate_literal (cfg : PersonCfg) (g : RNG) (tl : Timeline)
    (r1 w d : List ℕ) (g1 g2 g3 : RNG)
    (h1 : generateRoom1 cfg.room_per_day cfg.room_duration tl
        (generateInside cfg.outside_hours_weekdays cfg.outside_hours_weekend tl)
        (generateSleeping cfg.sleep_hours tl) g = some (r1, g1))
    (h2 : generateWindow cfg.window_open_per_day cfg.window_open_duration tl
        (generateInside cfg.outside_hours_weekdays cfg.outside_hours_weekend tl)
        (generateSleeping cfg.sleep_hours tl) g1 = some (w, g2))
    (h3 : generateDoor cfg.door_open_per_day cfg.door_open_duration tl
        (generateInside cfg.outside_hours_weekdays cfg.outside_hours_weekend tl)
        (generateSleeping cfg.sleep_hours tl) g2 = some (d, g3)) :
    Person.generate ⟨cfg, g, some tl, none⟩ =
      some (⟨generateInside cfg.outside_hours_weekdays cfg.outside_hours_weekend tl,
             generateSleeping cfg.sleep_hours tl, r1, w, d⟩,
        ⟨cfg, g3, some tl,
          some ⟨generateInside cfg.outside_hours_weekdays cfg.outside_hours_weekend tl,
                generateSleeping cfg.sleep_hours tl, r1, w, d⟩⟩) := by
  simp only [Person.generate, h1, h2, h3]

/-- Room1 stage of the §8 scenario with a pinned-zero period count. -/
theorem generateRoom1_scenario_zero (dr : ℤ × ℤ) (wd : ℕ) (dt : ℤ)
    (ins sl : List ℕ) (g : RNG) :
    generateRoom1 (0, 0) dr (scenarioDay wd dt) ins sl g =
      some (List.replicate 1440 0, ⟨g.f, g.k + 1⟩) := by
  simp only [generateRoom1, scenario_length, scenario_dayIdx]
  rw [if_neg (by norm_num)]
  exact room1Days_zero dr ins sl 1440 [List.range 1440] _ g

/-- Window stage of the §8 scenario with a pinned-zero open count. -/
theorem generateWindow_scenario_zero (dr : ℤ × ℤ) (wd : ℕ) (dt : ℤ)
    (ins sl : List ℕ) (g : RNG) :
    generateWindow (0, 0) dr (scenarioDay wd dt) ins sl g =
      some (List.replicate 1440 0, ⟨g.f, g.k + 1⟩) := by
  simp only [generateWindow, scenario_length, scenario_dayIdx]
  exact windowDays_zero dr ins sl [List.range 1440] _ g

/-- Door stage of the §8 scenario with a pinned-zero open count: only the
transition marks remain. -/
theorem generateDoor_scenario_zero (dr : ℤ × ℤ) (wd : ℕ) (dt : ℤ)
    (ins sl : List ℕ) (g : RNG) :
    generateDoor (0, 0) dr (scenarioDay wd dt) ins sl g =
      some (doorTransitions ins, ⟨g.f, g.k + 1⟩) := by
  simp only [generateDoor, scenario_length, scenario_dayIdx]
  exact doorDays_zero dr ins sl 1440 [List.range 1440] _ g

set_option maxRecDepth 40000 in
/-- C2 counterexample: in the §8 scenario (weekday, all event counts
pinned to zero) the generated door array is 1 at index 540 (hour 9.0,
the exit transition) although the person is outside there
(`inside = 0`), so door events are not confined to
`inside = 1 ∧ sleeping = 0` indices. -/
theorem c2_door_outside_cex :
    ∃ r, Person.generate c2CexP = some r ∧
      r.1.door.getD 540 0 = 1 ∧ r.1.inside.getD 540 0 = 0 := by
  have h1 : generateRoom1 c2Cfg.room_per_day c2Cfg.room_duration (scenarioDay 0 0)
      (generateInside c2Cfg.outside_hours_weekdays c2Cfg.outside_hours_weekend
        (scenarioDay 0 0))
      (generateSleeping c2Cfg.sleep_hours (scenarioDay 0 0)) ⟨zeroStream, 0⟩ =
      some (List.replicate 1440 0, ⟨zeroStream, 1⟩) :=
    generateRoom1_scenario_zero c2Cfg.room_duration 0 0 _ _ ⟨zeroStream, 0⟩
  have h2 : generateWindow c2Cfg.window_open_per_day c2Cfg.window_open_duration
      (scenarioDay 0 0)
      (generateInside c2Cfg.outside_hours_weekdays c2Cfg.outside_hours_weekend
        (scenarioDay 0 0))
      (generateSleeping c2Cfg.sleep_hours (scenarioDay 0 0)) ⟨zeroStream, 1⟩ =
      some (List.replicate 1440 0, ⟨zeroStream, 2⟩) :=
    generateWindow_scenario_zero c2Cfg.window_open_duration 0 0 _ _ ⟨zeroStream, 1⟩
  have h3 : generateDoor c2Cfg.door_open_per_day c2Cfg.door_open_duration
      (scenarioDay 0 0)
      (generateInside c2Cfg.outside_hours_weekdays c2Cfg.outside_hours_weekend
        (scenarioDay 0 0))
      (generateSleeping c2Cfg.sleep_hours (scenarioDay 0 0)) ⟨zeroStream, 2⟩ =
      some (doorTransitions
        (generateInside c2Cfg.outside_hours_weekdays c2Cfg.outside_hours_weekend
          (scenarioDay 0 0)), ⟨zeroStream, 3⟩) :=
    generateDoor_scenario_zero c2Cfg.door_open_duration 0 0 _ _ ⟨zeroStream, 2⟩
  have hgen := generate_literal c2Cfg ⟨zeroStream, 0⟩ (scenarioDay 0 0)
    _ _ _ _ _ _ h1 h2 h3
  refine ⟨_, hgen, ?_, ?_⟩
  · show (doorTransitions
      (generateInside c2Cfg.outside_hours_weekdays c2Cfg.outside_hours_weekend
        (scenarioDay 0 0))).getD 540 0 = 1
    rw [doorTransitions_getD _ 540 (by norm_num)
      (by rw [generateInside_length, scenario_length]; norm_num)]
    rw [inside_scenario_getD _ _ _ _ 540 (by norm_num),
      inside_scenario_getD _ _ _ _ (540 - 1) (by norm_num)]
    with_unfolding_all decide
  · show (generateInside c2Cfg.outside_hours_weekdays c2Cfg.outside_hours_weekend
      (scenarioDay 0 0)).getD 540 0 = 0
    rw [inside_scenario_getD _ _ _ _ 540 (by norm_num)]
    with_unfolding_all decide

/-- The sleeping array of a `(23, 7)` sleeper is 1 before 07:00. -/
theorem sleeping_scenario_early (wd : ℕ) (dt : ℤ) (a : ℕ) (ha : a < 420) :
    (generateSleeping ((23 : ℚ), (7 : ℚ)) (scenarioDay wd dt)).getD a 0 = 1 := by
  rw [generateSleeping, List.getD_eq_getElem?_getD, List.getElem?_map, scenarioDay,
    List.getElem?_map, List.getElem?_range (by omega)]
  show (if (if (23 : ℚ) < 7 then (23 : ℚ) ≤ (a : ℚ) / 60 ∧ (a : ℚ) / 60 < 7
      else (a : ℚ) / 60 ≥ 23 ∨ (a : ℚ) / 60 < 7) then 1 else 0) = 1
  have hdiv : (a : ℚ) / 60 < 7 := by
    rw [div_lt_iff₀ (by norm_num : (0 : ℚ) < 60)]
    have h4 : (a : ℚ) < 420 := by exact_mod_cast ha
    linarith
  have hcond : (if (23 : ℚ) < 7 then (23 : ℚ) ≤ (a : ℚ) / 60 ∧ (a : ℚ) / 60 < 7
      else (a : ℚ) / 60 ≥ 23 ∨ (a : ℚ) / 60 < 7) := by
    rw [if_neg (by norm_num : ¬ (23 : ℚ) < 7)]
    exact Or.inr hdiv
  rw [if_pos hcond]

/-- First element of the valid-index list over the §8 day when every
index before 420 is invalid and 420 is valid. -/
theorem valid_range_head (ins sl : List ℕ)
    (h420 : ins.getD 420 0 ≠ 0 ∧ sl.getD 420 0 = 0)
    (hbelow : ∀ a, a < 420 → ¬ (ins.getD a 0 ≠ 0 ∧ sl.getD a 0 = 0)) :
    ∃ rest, validIdx (List.range 1440) ins sl = 420 :: rest := by
  rw [validIdx]
  rw [show (1440 : ℕ) = 420 + 1020 from rfl, List.range_add]
  rw [List.filter_append]
  have hnil : (List.range 420).filter
      (fun i => decide (ins.getD i 0 ≠ 0 ∧ sl.getD i 0 = 0)) = [] := by
    apply List.filter_eq_nil_iff.mpr
    intro a ha
    simp only [decide_eq_true_eq]
    exact hbelow a (List.mem_range.mp ha)
  rw [hnil, List.nil_append]
  rw [show (1020 : ℕ) = 1019 + 1 from rfl, List.range_succ_eq_map]
  rw [List.map_cons]
  rw [List.filter_cons_of_pos (by simp only [decide_eq_true_eq]; exact h420)]
  exact ⟨_, rfl⟩

/-- `choice` with the all-zero stream picks the head of the list. -/
theorem npChoice_cons_zero (x : ℕ) (l : List ℕ) (k : ℕ) :
    npChoice (x :: l) ⟨zeroStream, k⟩ = some (x, ⟨zeroStream, k + 1⟩) := by
  rw [npChoice, if_neg (by simp)]
  simp [RNG.next, zeroStream]

/-- Last element of the §8 day-index group. -/
theorem range_getLastD : (List.range 1440).getLastD 0 = 1439 := by
  rw [show (1440 : ℕ) = 1439 + 1 from rfl, List.range_succ, List.getLastD_concat]

/-- One-minute room1 fill at a valid index. -/
theorem fillRoom1_single (ins sl : List ℕ) (arr : List ℕ)
    (h420 : ins.getD 420 0 ≠ 0 ∧ sl.getD 420 0 = 0) :
    fillRoom1 ins sl 1440 arr 420 421 = arr.set 420 1 := by
  rw [fillRoom1]
  show fillRoom1Aux ins sl 1440 arr 420 1 = arr.set 420 1
  simp only [fillRoom1Aux]
  rw [if_neg (by norm_num : ¬ (1440 ≤ 420)), if_pos h420]

/-- One room1 event over the §8 day with pinned duration 1 and the
all-zero stream: marks exactly index 420. -/
theorem room1Event_scenario (ins sl : List ℕ) (arr : List ℕ) (k : ℕ) (rest : List ℕ)
    (hv : validIdx (List.range 1440) ins sl = 420 :: rest)
    (h420 : ins.getD 420 0 ≠ 0 ∧ sl.getD 420 0 = 0) :
    room1Event (1, 1) (List.range 1440) ins sl 1440 arr ⟨zeroStream, k⟩ =
      some (arr.set 420 1, ⟨zeroStream, k + 2⟩) := by
  simp only [room1Event, hv, List.isEmpty_cons, npChoice_cons_zero,
    npIntegers_one_one, range_getLastD]
  rw [if_neg (by simp : ¬ (false = true))]
  norm_num
  rw [fillRoom1_single ins sl arr h420]

/-- The single-event loop over the §8 day. -/
theorem room1Events_scenario (ins sl : List ℕ) (arr : List ℕ) (k : ℕ) (rest : List ℕ)
    (hv : validIdx (List.range 1440) ins sl = 420 :: rest)
    (h420 : ins.getD 420 0 ≠ 0 ∧ sl.getD 420 0 = 0) :
    room1Events (1, 1) (List.range 1440) ins sl 1440 1 arr ⟨zeroStream, k⟩ =
      some (arr.set 420 1, ⟨zeroStream, k + 2⟩) := by
  simp only [room1Events, room1Event_scenario ins sl arr k rest hv h420]

/-- Room1 stage of the §8 scenario with one event of duration 1 per day,
under the all-zero stream: exactly index 420 is marked. -/
theorem generateRoom1_scenario_one (wd : ℕ) (dt : ℤ) (ins sl : List ℕ) (rest : List ℕ)
    (hv : validIdx (List.range 1440) ins sl = 420 :: rest)
    (h420 : ins.getD 420 0 ≠ 0 ∧ sl.getD 420 0 = 0) :
    generateRoom1 (1, 1) (1, 1) (scenarioDay wd dt) ins sl ⟨zeroStream, 0⟩ =
      some ((List.replicate 1440 0).set 420 1, ⟨zeroStream, 3⟩) := by
  simp only [generateRoom1, scenario_length, scenario_dayIdx]
  rw [if_neg (by norm_num)]
  simp only [room1Days, npIntegers_one_one, Nat.zero_add, Int.toNat_one]
  rw [room1Events_scenario ins sl (List.replicate 1440 0) 1 rest hv h420]

/-- C2 (amended): in the §8 end-to-end scenario (single-day axis of 1440
one-minute timestamps, `outside_hours_weekdays = [(9, 17)]`,
`sleep_hours = (23, 7)`), every index set to 1 in the generated room1 and
window arrays lies at an index where the person is inside and not
sleeping, for every seed.  The door array is excluded: it also marks
inside-state transitions, which fall on outside indices (see the
counterexample). -/
theorem c2_scenario_room_window_confined :
    ∀ (cfg : PersonCfg) (f : ℕ → ℕ) (wd : ℕ) (dt : ℤ) (r : PersonOutput × Person),
      cfg.outside_hours_weekdays = [(9, 17)] → cfg.sleep_hours = (23, 7) →
      Person.generate ((mkPerson cfg f).set_timeline (scenarioDay wd dt)) = some r →
      ∀ i, (r.1.room1.getD i 0 = 1 ∨ r.1.window.getD i 0 = 1) →
        r.1.inside.getD i 0 = 1 ∧ r.1.sleeping.getD i 0 = 0 := by
  intro cfg f wd dt r _ _ h i hi
  exact generate_room_window_inv ((mkPerson cfg f).set_timeline (scenarioDay wd dt))
    r rfl h i hi

theorem c2_scenario_room_window_confined_witness :
    w2Cfg.outside_hours_weekdays = [(9, 17)] ∧ w2Cfg.sleep_hours = (23, 7) ∧
    ∃ r, Person.generate w2P = some r ∧ r.1.room1.getD 420 0 = 1 ∧
      r.1.inside.getD 420 0 = 1 ∧ r.1.sleeping.getD 420 0 = 0 := by
  have h420 : (generateInside w2Cfg.outside_hours_weekdays w2Cfg.outside_hours_weekend
        (scenarioDay 0 0)).getD 420 0 ≠ 0 ∧
      (generateSleeping w2Cfg.sleep_hours (scenarioDay 0 0)).getD 420 0 = 0 := by
    constructor
    · rw [inside_scenario_getD _ _ _ _ 420 (by norm_num)]
      with_unfolding_all decide
    · rw [sleeping_scenario_getD _ _ _ 420 (by norm_num)]
      with_unfolding_all decide
  have hbelow : ∀ a, a < 420 →
      ¬ ((generateInside w2Cfg.outside_hours_weekdays w2Cfg.outside_hours_weekend
            (scenarioDay 0 0)).getD a 0 ≠ 0 ∧
        (generateSleeping w2Cfg.sleep_hours (scenarioDay 0 0)).getD a 0 = 0) := by
    intro a ha h
    obtain ⟨-, h2⟩ := h
    have h1 : (generateSleeping w2Cfg.sleep_hours (scenarioDay 0 0)).getD a 0 = 1 :=
      sleeping_scenario_early 0 0 a ha
    rw [h1] at h2
    exact one_ne_zero h2
  obtain ⟨rest, hv⟩ := valid_range_head _ _ h420 hbelow
  have h1 : generateRoom1 w2Cfg.room_per_day w2Cfg.room_duration (scenarioDay 0 0)
      (generateInside w2Cfg.outside_hours_weekdays w2Cfg.outside_hours_weekend
        (scenarioDay 0 0))
      (generateSleeping w2Cfg.sleep_hours (scenarioDay 0 0)) ⟨zeroStream, 0⟩ =
      some ((List.replicate 1440 0).set 420 1, ⟨zeroStream, 3⟩) :=
    generateRoom1_scenario_one 0 0 _ _ rest hv h420
  have h2 : generateWindow w2Cfg.window_open_per_day w2Cfg.window_open_duration
      (scenarioDay 0 0)
      (generateInside w2Cfg.outside_hours_weekdays w2Cfg.outside_hours_weekend
        (scenarioDay 0 0))
      (generateSleeping w2Cfg.sleep_hours (scenarioDay 0 0)) ⟨zeroStream, 3⟩ =
      some (List.replicate 1440 0, ⟨zeroStream, 4⟩) :=
    generateWindow_scenario_zero w2Cfg.window_open_duration 0 0 _ _ ⟨zeroStream, 3⟩
  have h3 : generateDoor w2Cfg.door_open_per_day w2Cfg.door_open_duration
      (scenarioDay 0 0)
      (generateInside w2Cfg.outside_hours_weekdays w2Cfg.outside_hours_weekend
        (scenarioDay 0 0))
      (generateSleeping w2Cfg.sleep_hours (scenarioDay 0 0)) ⟨zeroStream, 4⟩ =
      some (doorTransitions
        (generateInside w2Cfg.outside_hours_weekdays w2Cfg.outside_hours_weekend
          (scenarioDay 0 0)), ⟨zeroStream, 5⟩) :=
    generateDoor_scenario_zero w2Cfg.door_open_duration 0 0 _ _ ⟨zeroStream, 4⟩
  have hgen := generate_literal w2Cfg ⟨zeroStream, 0⟩ (scenarioDay 0 0)
    _ _ _ _ _ _ h1 h2 h3
  have hroom : ((List.replicate 1440 (0 : ℕ)).set 420 1).getD 420 0 = 1 := by
    rw [List.getD_eq_getElem?_getD, List.getElem?_set]
    rw [if_pos rfl, List.length_replicate]
    rw [if_pos (by norm_num)]
    rfl
  have happ := c2_scenario_room_window_confined w2Cfg zeroStream 0 0
    (⟨⟨generateInside w2Cfg.outside_hours_weekdays w2Cfg.outside_hours_weekend
          (scenarioDay 0 0),
        generateSleeping w2Cfg.sleep_hours (scenarioDay 0 0),
        (List.replicate 1440 0).set 420 1, List.replicate 1440 0,
        doorTransitions
          (generateInside w2Cfg.outside_hours_weekdays w2Cfg.outside_hours_weekend
            (scenarioDay 0 0))⟩,
      ⟨w2Cfg, ⟨zeroStream, 5⟩, some (scenarioDay 0 0),
        some ⟨generateInside w2Cfg.outside_hours_weekdays w2Cfg.outside_hours_weekend
            (scenarioDay 0 0),
          generateSleeping w2Cfg.sleep_hours (scenarioDay 0 0),
          (List.replicate 1440 0).set 420 1, List.replicate 1440 0,
          doorTransitions
            (generateInside w2Cfg.outside_hours_weekdays w2Cfg.outside_hours_weekend
              (scenarioDay 0 0))⟩⟩⟩)
    rfl rfl hgen 420 (Or.inl hroom)
  exact ⟨rfl, rfl, _, hgen, hroom, happ.1, happ.2⟩
